import Mathlib

/-!
Shallow embedding of the MegaMem repository (graphiti_bridge + mcp-server)
for checking its natural-language specification.

Each definition mirrors one Python function of the source tree; line
references are given in the doc comments.  Python strings are modelled by
`String`/`List Char` (code-point semantics, which is what CPython uses for
`<`, `lower`, slicing on `str`); Python `dict` objects are modelled by
association lists with insert-or-overwrite preserving insertion order;
exceptions are modelled by `Option`/sum results.  `\s`, `str.strip`,
`str.lower` are modelled on ASCII, which covers every input the claims and
the code's own literals use.
-/

namespace MegaMem

/-- ASCII whitespace as recognised by Python's `str.strip` and `\s`. -/
def pyIsSpaceChar (c : Char) : Bool :=
  c == ' ' || c == '\t' || c == '\n' || c == '\r' ||
    c == Char.ofNat 11 || c == Char.ofNat 12

/-- Model of Python `str.strip()` (ASCII whitespace). -/
def pyStrip (s : String) : String :=
  String.mk (((s.data.dropWhile pyIsSpaceChar).reverse.dropWhile pyIsSpaceChar).reverse)

/-- Model of Python `str.lower()` (ASCII case folding). -/
def pyLower (s : String) : String :=
  String.mk (s.data.map Char.toLower)

/-- Model of Python `str.rstrip('/')`. -/
def rstripSlash (s : String) : String :=
  String.mk ((s.data.reverse.dropWhile (· == '/')).reverse)

/-- Substring test on char lists: does `pat` occur contiguously in `cs`?
Models Python's `pat in s`. -/
def containsSub (cs pat : List Char) : Bool :=
  match cs with
  | [] => pat.isEmpty
  | _ :: tl => pat.isPrefixOf cs || containsSub tl pat

/-- Python `s.startswith(t)`. -/
def startsWithStr (s t : String) : Bool := t.data.isPrefixOf s.data

/-- Python `s.endswith(t)`. -/
def endsWithStr (s t : String) : Bool :=
  t.data.reverse.isPrefixOf s.data.reverse

/-- Split on every occurrence of one separator character; models Python
`s.split(sep)` for a one-character separator (and Lean's `splitOn`): the
empty string yields `[""]`, and separators at the ends yield empty
pieces. -/
def splitOnCharAux (sep : Char) : List Char → List Char → List (List Char)
  | [], acc => [acc.reverse]
  | c :: cs, acc =>
      if c == sep then acc.reverse :: splitOnCharAux sep cs []
      else splitOnCharAux sep cs (c :: acc)

/-- Entry point of the one-character split. -/
def splitOnChar (sep : Char) (cs : List Char) : List (List Char) :=
  splitOnCharAux sep cs []

/-- Join char-list pieces with a one-character separator. -/
def intercalateChar (sep : Char) : List (List Char) → List Char
  | [] => []
  | [p] => p
  | p :: ps => p ++ sep :: intercalateChar sep ps

/-- Model of Python `pat in s` on strings. -/
def pyIn (pat s : String) : Bool := containsSub s.data pat.data

/-- Model of `pathlib.PurePath.as_posix()` for POSIX-style inputs: spurious
slashes and single-dot components are collapsed, a trailing slash is
dropped, the empty path and `.` render as `.`, and a leading `/` is kept.
(The rare POSIX double-leading-slash corner is not modelled; no input in
this development is absolute.) -/
def asPosix (s : String) : String :=
  let comps := (splitOnChar '/' s.data).filter
    (fun c => !c.isEmpty && c != ['.'])
  if startsWithStr s "/" then String.mk ('/' :: intercalateChar '/' comps)
  else if comps.isEmpty then "." else String.mk (intercalateChar '/' comps)

/-- Directory part used by `_resolve_custom_folder_mapping`
(sync.py:1895-1897): `'/'.join(path_parts[:-1])` when the split has more
than one part, else `''`. -/
def dirnameOf (s : String) : String :=
  let parts := splitOnChar '/' s.data
  if parts.length > 1 then String.mk (intercalateChar '/' parts.dropLast)
  else ""

/-! ## Stable descending sort

Python's `list.sort(key=k, reverse=True)` / `sorted(..., reverse=True)` is a
stable sort presented in descending key order: elements with equal keys keep
their original relative order.  We model it by a stable insertion sort over
an explicit Boolean `<` on elements, matching Python's comparison-based
semantics. -/

/-- Python's `<` on strings: lexicographic comparison of code points. -/
def listLtB : List Char → List Char → Bool
  | [], [] => false
  | [], _ :: _ => true
  | _ :: _, [] => false
  | a :: as, b :: bs =>
      if a < b then true else if b < a then false else listLtB as bs

/-- Python `a < b` on strings. -/
def pyStrLt (a b : String) : Bool := listLtB a.data b.data

/-- Python `a <= b` on strings. -/
def pyStrLe (a b : String) : Bool := !(pyStrLt b a)

/-- Insert `e` into a descending-sorted list, after every element not below
`e` (stability) and before the first strictly smaller one. -/
def insertDescBy {α : Type} (ltB : α → α → Bool) (e : α) :
    List α → List α
  | [] => [e]
  | x :: xs => if ltB x e then e :: x :: xs else x :: insertDescBy ltB e xs

/-- Stable descending sort; models `sorted(l, key=..., reverse=True)` where
`ltB a b` is Python's `key(a) < key(b)`. -/
def sortDescBy {α : Type} (ltB : α → α → Bool) (l : List α) : List α :=
  l.foldl (fun acc e => insertDescBy ltB e acc) []

/-! ## sync.json records and saga chain lookup (sync.py:1968-1995) -/

/-- One entry of a `syncs` array inside sync.json.  Fields absent from the
JSON object are `none` (Python `dict.get` returns `None`). -/
structure SyncEntry where
  saga_name : Option String
  episode_uuid : Option String
  last_sync : Option String
deriving DecidableEq, Repr

/-- One element of `sync_records` in sync.json. -/
structure SyncRecord where
  syncs : List SyncEntry
deriving DecidableEq, Repr

/-- Python truthiness of `entry.get('episode_uuid')`. -/
def entryUuidTruthy (e : SyncEntry) : Bool :=
  match e.episode_uuid with
  | some u => u != ""
  | none => false

/-- The filter of `lookup_saga_previous_uuid`:
`entry.get('saga_name') == saga_name and entry.get('episode_uuid')`. -/
def sagaEntryMatches (saga_name : String) (e : SyncEntry) : Bool :=
  (e.saga_name == some saga_name) && entryUuidTruthy e

/-- The pool `lookup_saga_previous_uuid` draws from: every entry of every
record (the nested comprehension at sync.py:1970-1975). -/
def allSyncEntries (sync_records : List SyncRecord) : List SyncEntry :=
  sync_records.flatMap (·.syncs)

/-- Sort key of the lookup: `e.get('last_sync', '')`. -/
def lastSyncKey (e : SyncEntry) : String := e.last_sync.getD ""

/-- Model of `lookup_saga_previous_uuid` (sync.py:1968-1979): collect every
entry of every record matching the saga with a truthy `episode_uuid`, sort
by `last_sync` (missing → `''`) descending, return the first entry's
`episode_uuid`, or `None` when nothing matched. -/
def lookup_saga_previous_uuid (saga_name : String)
    (sync_records : List SyncRecord) : Option String :=
  let matching :=
    (allSyncEntries sync_records).filter (sagaEntryMatches saga_name)
  if matching.isEmpty then none
  else
    match sortDescBy (fun e1 e2 => pyStrLt (lastSyncKey e1) (lastSyncKey e2))
        matching with
    | [] => none
    | e :: _ => e.episode_uuid

/-- Possible outcomes of reading `<vault>/.obsidian/plugins/megamem-mcp/sync.json`. -/
inductive SyncLoadOutcome where
  | noVaultPath
  | missingFile
  | unreadable
  | ok (records : List SyncRecord)
deriving Repr

/-- Model of `_load_sync_records` (sync.py:1982-1995): a missing vault path,
a missing file, or any exception while reading/parsing all yield `[]`;
otherwise `data.get('sync_records', [])`. -/
def load_sync_records : SyncLoadOutcome → List SyncRecord
  | .ok records => records
  | _ => []

/-! ## Frontmatter values and dictionaries (utils.py) -/

/-- Scalar values a frontmatter mapping can hold in this development.
`float` carries the literal text (the claims never inspect a float's
numeric value); `pydate`/`pydatetime` model `datetime.date` /
`datetime.datetime` objects a YAML parser may produce. -/
inductive Val where
  | str (s : String)
  | bool (b : Bool)
  | int (n : Nat)
  | float (lit : String)
  | pydate (y mo d : Nat)
  | pydatetime (y mo d h mi sec : Nat) (aware : Bool)
deriving DecidableEq, Repr

/-- A frontmatter mapping: a Python `dict` as an insertion-ordered
association list without duplicate keys. -/
abbrev FM : Type := List (String × Val)

/-- Python truthiness of a frontmatter value. -/
def pyTruthy : Val → Bool
  | .str s => s != ""
  | .bool b => b
  | .int n => n != 0
  | .float lit => lit.data.any (fun c => '1' ≤ c && c ≤ '9')
  | .pydate _ _ _ => true
  | .pydatetime _ _ _ _ _ _ _ => true

/-- Model of Python `str(v)` for the scalar values above (floats render
their literal; `repr`-level normalisation of float text is not needed by
any claim). -/
def pyStr : Val → String
  | .str s => s
  | .bool b => if b then "True" else "False"
  | .int n => toString n
  | .float lit => lit
  | .pydate y mo d => toString y ++ "-" ++ toString mo ++ "-" ++ toString d
  | .pydatetime y mo d h mi sec _ =>
      toString y ++ "-" ++ toString mo ++ "-" ++ toString d ++ " " ++
        toString h ++ ":" ++ toString mi ++ ":" ++ toString sec

/-- Python `dict` lookup `m.get(k)`. -/
def fmGet (k : String) (m : FM) : Option Val :=
  (List.find? (fun p => p.1 == k) m).map (·.2)

/-- Python `dict` assignment `m[k] = v`: overwrite in place (keeping the
original position) or append. -/
def dictInsert (k : String) (v : Val) (m : FM) : FM :=
  if m.any (fun p => p.1 == k) then
    m.map (fun p => if p.1 == k then (k, v) else p)
  else m ++ [(k, v)]

/-- Nonempty all-ASCII-digit test; models `str.isdigit()` for the ASCII
inputs this code handles. -/
def isDigits (s : String) : Bool :=
  s != "" && s.data.all (fun c => '0' ≤ c && c ≤ '9')

/-- Numeric value of an all-digit string (Python `int(s)`). -/
def natFromDigits (s : String) : Nat :=
  s.data.foldl (fun acc c => acc * 10 + (c.toNat - '0'.toNat)) 0

/-- Scalar conversion of `parse_simple_frontmatter` (utils.py:146-153):
strip matching surrounding quotes happened before; then
`true|false` (case-insensitive) becomes a bool, an all-digit string an int,
and a digits-plus-dots string a float — where `float(value)` raises for two
or more dots, modelled by `none` (the exception propagates to
`extract_frontmatter`'s handler). -/
def convertScalar (value : String) : Option Val :=
  if pyLower value == "true" || pyLower value == "false" then
    some (.bool (pyLower value == "true"))
  else if isDigits value then some (.int (natFromDigits value))
  else if isDigits (String.mk (value.data.filter (fun c => c != '.'))) then
    if (value.data.filter (fun c => c == '.')).length ≥ 2 then none
    else some (.float value)
  else some (.str value)

/-- Strip one pair of matching surrounding quotes (utils.py:140-144). -/
def stripQuotes (value : String) : String :=
  if startsWithStr value "\"" && endsWithStr value "\"" then
    String.mk ((value.data.drop 1).dropLast)
  else if startsWithStr value "'" && endsWithStr value "'" then
    String.mk ((value.data.drop 1).dropLast)
  else value

/-- One line of the fallback frontmatter parser (utils.py:135-155): strip
the line, skip it unless it contains `:` and is not a comment, split at the
first `:`, strip both halves, unquote, convert, store. -/
def parseSimpleLine (acc : FM) (rawLine : String) : Option FM :=
  let line := pyStrip rawLine
  if line.data.contains ':' && !(startsWithStr line "#") then
    let key := String.mk (line.data.takeWhile (fun c => c != ':'))
    let value := String.mk ((line.data.dropWhile (fun c => c != ':')).drop 1)
    let value' := stripQuotes (pyStrip value)
    match convertScalar value' with
    | some v => some (dictInsert (pyStrip key) v acc)
    | none => none
  else some acc

/-- Model of `parse_simple_frontmatter` (utils.py:127-157).  `none` models
the `float(...)` call raising, which `extract_frontmatter` catches. -/
def parse_simple_frontmatter (frontmatter_text : String) : Option FM :=
  ((splitOnChar '\n' frontmatter_text.data).map String.mk).foldl
    (fun acc line => acc.bind (fun m => parseSimpleLine m line)) (some [])

/-! ## The frontmatter regex (utils.py:106-107)

`re.match(r'^---\s*\n(.*?)\n---\s*\n', content, re.DOTALL)` with Python
backtracking semantics: after the literal `---`, greedy `\s*\n` consumes up
to the last newline of the whitespace run (backtracking to earlier newlines
if the rest fails); the non-greedy group stops at the earliest position
where `\n---` is followed by a whitespace run containing a newline; the
trailing `\s*\n` again consumes up to the last newline of its run. -/

/-- All ways `\s*\n` can match a prefix of `cs`, listed from least to most
consumed; each element is the remaining suffix. -/
def spaceNlSuffixes : List Char → List (List Char)
  | [] => []
  | c :: cs =>
      if c == '\n' then cs :: spaceNlSuffixes cs
      else if pyIsSpaceChar c then spaceNlSuffixes cs
      else []

/-- Scan for the closing `\n---\s*\n` of the frontmatter block (the
non-greedy group): returns the group text and the suffix after the whole
match.  At a candidate position the trailing `\s*\n` is matched greedily;
when it cannot match, the group extends by one character. -/
def scanClose : List Char → Option (List Char × List Char)
  | [] => none
  | c :: cs =>
      (match c, cs with
        | '\n', '-' :: '-' :: '-' :: t =>
          match (spaceNlSuffixes t).reverse with
          | rest :: _ => some ([], rest)
          | [] =>
            match scanClose cs with
            | some (g, r) => some (c :: g, r)
            | none => none
        | _, _ =>
          match scanClose cs with
          | some (g, r) => some (c :: g, r)
          | none => none)

/-- Full model of the frontmatter regex match: `some (group1, remainder)`
when the pattern matches at the start of `cs`. -/
def fmMatch (cs : List Char) : Option (List Char × List Char) :=
  match cs with
  | '-' :: '-' :: '-' :: rest =>
      ((spaceNlSuffixes rest).reverse).findSome? (fun body => scanClose body)
  | _ => none

/-- Whether a YAML facility is importable (utils.py:15-22), and if so, its
parser.  The parser result models `yaml.safe_load`: `none` = the call
raised; `some none` = it parsed to a non-dict value; `some (some d)` = it
parsed to the dict `d`. -/
inductive YamlFacility where
  | yaml (parse : String → Option (Option FM))
  | fallbackOnly

/-- Model of `extract_frontmatter` (utils.py:95-124).  When the regex
matches, the block is parsed by YAML when available, else by
`parse_simple_frontmatter`; a non-dict YAML result yields `{}` with the
block stripped; any parse exception is caught, leaving `({}, content)`
unchanged.  No regex match also yields `({}, content)`. -/
def extract_frontmatter (fac : YamlFacility) (content : String) : FM × String :=
  match fmMatch content.data with
  | none => ([], content)
  | some (block, rest) =>
    match fac with
    | .yaml parse =>
      match parse (String.mk block) with
      | none => ([], content)
      | some none => ([], String.mk rest)
      | some (some d) => (d, String.mk rest)
    | .fallbackOnly =>
      match parse_simple_frontmatter (String.mk block) with
      | none => ([], content)
      | some d => (d, String.mk rest)

/-! ## datetime model -/

/-- A civil wall-clock instant (no zone). -/
structure Civil where
  year : Nat
  month : Nat
  day : Nat
  hour : Nat
  minute : Nat
  second : Nat
deriving DecidableEq, Repr

/-- A Python `datetime.datetime` value in this code base: either naive or
carrying `timezone.utc` (the only tzinfo the code ever attaches). -/
structure PyDateTime where
  civil : Civil
  utc : Bool
deriving DecidableEq, Repr

/-- Validity check performed by the `datetime` constructor (and hence by
`strptime`): year in 1..9999, month in 1..12, day within the month, and
in-range time fields. -/
def isLeap (y : Nat) : Bool :=
  (y % 4 == 0 && y % 100 != 0) || y % 400 == 0

/-- Day count of a month. -/
def daysInMonth (y m : Nat) : Nat :=
  if m == 2 then (if isLeap y then 29 else 28)
  else if m == 4 || m == 6 || m == 9 || m == 11 then 30
  else 31

/-- Range validity of a civil value as `datetime` enforces it. -/
def civilValid (c : Civil) : Bool :=
  1 ≤ c.year && c.year ≤ 9999 && 1 ≤ c.month && c.month ≤ 12 &&
    1 ≤ c.day && c.day ≤ daysInMonth c.year c.month &&
    c.hour ≤ 23 && c.minute ≤ 59 && c.second ≤ 59

/-- Take exactly `n` ASCII digits from the front, returning their value and
the rest.  (Python `strptime`'s `%Y`/`%m`/`%d` also accept fewer digits
than the field width; every literal in this code and the claims is
zero-padded, so the fixed-width reading is exact for them.) -/
def takeDigits : Nat → List Char → Option (Nat × List Char)
  | 0, cs => some (0, cs)
  | _ + 1, [] => none
  | n + 1, c :: cs =>
      if '0' ≤ c && c ≤ '9' then
        (takeDigits n cs).map (fun p => ((c.toNat - '0'.toNat) * 10 ^ n + p.1, p.2))
      else none

/-- Consume a literal character. -/
def takeLit (c : Char) : List Char → Option (List Char)
  | [] => none
  | x :: xs => if x == c then some xs else none

/-- Model of `datetime.strptime(s, '%Y-%m-%d')`: the whole string must be
consumed and the civil value must be valid; the result is midnight naive. -/
def strptimeDate (s : String) : Option PyDateTime := do
  let (y, r1) ← takeDigits 4 s.data
  let r2 ← takeLit '-' r1
  let (mo, r3) ← takeDigits 2 r2
  let r4 ← takeLit '-' r3
  let (d, r5) ← takeDigits 2 r4
  if r5.isEmpty && civilValid ⟨y, mo, d, 0, 0, 0⟩ then
    some ⟨⟨y, mo, d, 0, 0, 0⟩, false⟩
  else none

/-- Model of `datetime.strptime(s, '%Y-%m-%dT%H:%M:%S')` (`sep = 'T'`) and
`'%Y-%m-%d %H:%M:%S'` (`sep = ' '`). -/
def strptimeDateTime (sep : Char) (s : String) : Option PyDateTime := do
  let (y, r1) ← takeDigits 4 s.data
  let r2 ← takeLit '-' r1
  let (mo, r3) ← takeDigits 2 r2
  let r4 ← takeLit '-' r3
  let (d, r5) ← takeDigits 2 r4
  let r6 ← takeLit sep r5
  let (h, r7) ← takeDigits 2 r6
  let r8 ← takeLit ':' r7
  let (mi, r9) ← takeDigits 2 r8
  let r10 ← takeLit ':' r9
  let (sec, r11) ← takeDigits 2 r10
  if r11.isEmpty && civilValid ⟨y, mo, d, h, mi, sec⟩ then
    some ⟨⟨y, mo, d, h, mi, sec⟩, false⟩
  else none

/-- The format loop of `extract_reference_time` (sync.py:2009-2016): try
`'%Y-%m-%d'`, `'%Y-%m-%dT%H:%M:%S'`, `'%Y-%m-%d %H:%M:%S'` in order. -/
def parseRefString (s : String) : Option PyDateTime :=
  match strptimeDate s with
  | some dt => some dt
  | none =>
    match strptimeDateTime 'T' s with
    | some dt => some dt
    | none => strptimeDateTime ' ' s

/-- Value handling of one metadata field in `extract_reference_time`
(sync.py:2006-2037): strings go through the three formats; `date` objects
are combined with midnight (naive); `datetime` objects pass through
unchanged; other scalars (no `strftime`) yield nothing. -/
def refTimeFromVal : Val → Option PyDateTime
  | .str s => parseRefString s
  | .pydate y mo d => some ⟨⟨y, mo, d, 0, 0, 0⟩, false⟩
  | .pydatetime y mo d h mi sec aware => some ⟨⟨y, mo, d, h, mi, sec⟩, aware⟩
  | _ => none

/-- Field scan of `extract_reference_time`: the first field that is present,
truthy and yields a parse wins; a truthy field whose parse fails does not
stop the scan. -/
def scanRefFields (metadata : FM) : List String → Option PyDateTime
  | [] => none
  | f :: fs =>
      match fmGet f metadata with
      | some v =>
        if pyTruthy v then
          match refTimeFromVal v with
          | some dt => some dt
          | none => scanRefFields metadata fs
        else scanRefFields metadata fs
      | none => scanRefFields metadata fs

/-- The field list scanned by `extract_reference_time` (sync.py:2001). -/
def refTimeFields : List String :=
  ["date", "created", "created_at", "timestamp", "modified"]

/-- Model of `extract_reference_time` (sync.py:1998-2045).  `nowLocal` is
the naive wall clock returned by `datetime.now()`; `nowUtc` is the civil
reading of `datetime.now(timezone.utc)`.  When no field yields a value the
FalkorDB backend gets the aware UTC clock and every other backend the naive
local clock; a parsed naive value is made aware (labelled UTC) only for
FalkorDB. -/
def extract_reference_time (metadata : FM) (database_type : String)
    (nowLocal nowUtc : Civil) : PyDateTime :=
  match scanRefFields metadata refTimeFields with
  | some dt =>
      if database_type == "falkordb" && !dt.utc then { dt with utc := true }
      else dt
  | none =>
      if database_type == "falkordb" then ⟨nowUtc, true⟩ else ⟨nowLocal, false⟩

/-- The reference-time normalisation both episode constructors apply before
submission (sync.py:1598-1606 and 1690-1698): a naive value is labelled
UTC, an aware value passes through. -/
def formatReferenceTime (dt : PyDateTime) : PyDateTime :=
  if dt.utc then dt else { dt with utc := true }

/-! ## Namespace resolution (sync.py:1784-1940) -/

/-- One element of `folderNamespaceMappings`.  The source reads mappings as
dicts via `.get`, with `''` / `None` defaults; absent optional keys are
`none` here and absent `folderPath`/`groupId` are `""`. -/
structure FolderMapping where
  folderPath : String
  groupId : String
  customExtractionInstructions : Option String
  sagaGrouping : Option String
  sagaPropertyKey : Option String
deriving DecidableEq, Repr

/-- The configuration fields the modelled functions consult. -/
structure BridgeConfig where
  enable_property_namespacing : Bool
  enable_folder_namespacing : Bool
  folder_namespace_mappings : List FolderMapping
  namespace_strategy : String
  default_namespace : String
  vault_path : String
  group_id : String
  use_custom_ontology : Bool
  database_type : String
  source_description : String
  global_extraction_instructions : Option String
  previous_episode_uuids : List String
deriving Repr

/-- Property namespacing (sync.py:1795-1801): when enabled and the
frontmatter carries `g_group_id`, its stripped string form is used if
nonempty. -/
def propertyNamespace (cfg : BridgeConfig) (metadata : FM) : Option String :=
  if cfg.enable_property_namespacing && !metadata.isEmpty then
    match fmGet "g_group_id" metadata with
    | some v =>
        let ns := pyStrip (pyStr v)
        if ns != "" then some ns else none
    | none => none
  else none

/-- Vault-relative path normalisation for mapping lookup
(sync.py:1809-1821): both paths go through `as_posix`, the vault path is
right-stripped of `/`, and a case-insensitive vault prefix is stripped. -/
def relPathForMapping (note_path vault_path : String) : String :=
  let note_posix := asPosix note_path
  let vault_posix := rstripSlash (asPosix vault_path)
  if vault_posix != "" &&
      startsWithStr (pyLower note_posix) (pyLower (vault_posix ++ "/")) then
    String.mk (note_posix.data.drop (vault_posix.data.length + 1))
  else note_posix

/-- Case-sensitive folder match of `_resolve_custom_folder_mapping`
(sync.py:1925): the note's folder equals the mapped folder or lies
strictly below it. -/
def folderMappingMatches (note_folder fp_norm : String) : Bool :=
  note_folder == fp_norm || startsWithStr note_folder (fp_norm ++ "/")

/-- The per-mapping acceptance test of `_resolve_custom_folder_mapping`
(sync.py:1911-1925): skip mappings with empty `folderPath` or `groupId`,
then compare the note's folder (filename dropped) with the normalised
mapping path — exactly or as a strict subfolder, case-sensitively. -/
def folderMatchPred (note_path : String) (m : FolderMapping) : Bool :=
  m.folderPath != "" && m.groupId != "" &&
    folderMappingMatches (dirnameOf (asPosix note_path)) (asPosix m.folderPath)

/-- Model of `_resolve_custom_folder_mapping` (sync.py:1881-1940): sort the
mappings by raw `folderPath` length descending (stable), and return the
`groupId` of the first mapping the acceptance test passes. -/
def resolveCustomFolderMapping (note_path : String)
    (folder_mappings : List FolderMapping) : Option String :=
  if folder_mappings.isEmpty then none
  else
    let sorted := sortDescBy
      (fun m1 m2 => decide (m1.folderPath.length < m2.folderPath.length))
      folder_mappings
    (sorted.find? (folderMatchPred note_path)).map (·.groupId)

/-- Model of `_extract_vault_name_from_path` (sync.py:1869-1878): returns
the supplied default namespace. -/
def extractVaultNameFromPath (_note_path default_namespace : String) : String :=
  default_namespace

/-- Model of `resolve_namespace` (sync.py:1784-1863).  Priority: property
namespacing, then folder mappings (when enabled and nonempty), then the
namespace strategy — whose `vault`, `custom` and fallback branches all
return `default_namespace`. -/
def resolve_namespace (note_path : String) (metadata : FM)
    (cfg : BridgeConfig) : String :=
  match propertyNamespace cfg metadata with
  | some ns => ns
  | none =>
    let folderResult :=
      if cfg.enable_folder_namespacing &&
          !cfg.folder_namespace_mappings.isEmpty then
        resolveCustomFolderMapping
          (relPathForMapping note_path cfg.vault_path)
          cfg.folder_namespace_mappings
      else none
    match folderResult with
    | some g => g
    | none =>
      if cfg.namespace_strategy == "vault" then
        extractVaultNameFromPath note_path cfg.default_namespace
      else if cfg.namespace_strategy == "custom" then cfg.default_namespace
      else cfg.default_namespace

/-- Modelled from the spec:
"among the configured folder→group mappings, select the mapping whose
folder path is the longest case-insensitive prefix of the relative path
(match is exact or followed by `/`); use that mapping's `groupId`."
This is the spec's description of folder namespacing, written for
comparison with `resolveCustomFolderMapping` above. -/
def folderMappingSpec (rel_path : String)
    (folder_mappings : List FolderMapping) : Option String :=
  let candidates := folder_mappings.filter (fun m =>
    m.folderPath != "" &&
      (pyLower rel_path == pyLower m.folderPath ||
        startsWithStr (pyLower rel_path) (pyLower m.folderPath ++ "/")))
  (sortDescBy (fun m1 m2 : FolderMapping =>
      decide (m1.folderPath.length < m2.folderPath.length))
    candidates).head?.map (·.groupId)

/-! ## Saga resolution (sync.py:1944-1965) -/

/-- Slugification used for saga names: lowercase, spaces to dashes,
truncate to `n` characters. -/
def slugify (n : Nat) (s : String) : String :=
  String.mk (((pyLower s).data.map (fun c => if c == ' ' then '-' else c)).take n)

/-- Model of `resolve_saga_name` (sync.py:1944-1965). -/
def resolve_saga_name (saga_grouping : String)
    (saga_property_key : Option String) (group_id : String)
    (note_type : Option Val) (frontmatter : FM) : Option String :=
  if saga_grouping == "none" then none
  else if saga_grouping == "singleSaga" then some ("all-" ++ group_id)
  else if saga_grouping == "customProperty" &&
      (saga_property_key.getD "") != "" then
    match fmGet (saga_property_key.getD "") frontmatter with
    | some v =>
        if pyTruthy v then some (slugify 80 (pyStr v) ++ "-" ++ group_id)
        else none
    | none => none
  else
    match note_type with
    | some v =>
        if pyTruthy v then some (slugify 40 (pyStr v) ++ "-" ++ group_id)
        else none
    | none => none

/-! ## Epoch arithmetic and ISO rendering -/

/-- Days from 1970-01-01 for a civil date (Howard Hinnant's civil-from-days
inverse); valid for year ≥ 1, which `civilValid` guarantees. -/
def daysFromCivil (y m d : Nat) : Int :=
  let yAdj : Nat := if m ≤ 2 then y - 1 else y
  let era : Nat := yAdj / 400
  let yoe : Nat := yAdj % 400
  let mp : Nat := if m > 2 then m - 3 else m + 9
  let doy : Nat := (153 * mp + 2) / 5 + (d - 1)
  let doe : Nat := yoe * 365 + yoe / 4 - yoe / 100 + doy
  (era * 146097 + doe : Int) - 719468

/-- POSIX seconds of a civil UTC instant. -/
def epochSeconds (c : Civil) : Int :=
  daysFromCivil c.year c.month c.day * 86400 +
    (c.hour * 3600 + c.minute * 60 + c.second : Nat)

/-- Zero-padded two-digit rendering. -/
def pad2 (n : Nat) : String :=
  if n < 10 then "0" ++ toString n else toString n

/-- Zero-padded four-digit rendering (`datetime` years are ≤ 9999). -/
def pad4 (n : Nat) : String :=
  if n < 10 then "000" ++ toString n
  else if n < 100 then "00" ++ toString n
  else if n < 1000 then "0" ++ toString n
  else toString n

/-- `datetime.isoformat()` for a whole-second UTC-aware value. -/
def isoformatUTC (c : Civil) : String :=
  pad4 c.year ++ "-" ++ pad2 c.month ++ "-" ++ pad2 c.day ++ "T" ++
    pad2 c.hour ++ ":" ++ pad2 c.minute ++ ":" ++ pad2 c.second ++ "+00:00"

/-! ## Rate-limit classification in `process_note` (sync.py:1455-1508) -/

/-- Consume a literal char sequence. -/
def dropLit : List Char → List Char → Option (List Char)
  | [], cs => some cs
  | _ :: _, [] => none
  | l :: ls, c :: cs => if c == l then dropLit ls cs else none

/-- Match the pattern
`You will regain access on (\d{4}-\d{2}-\d{2}) at (\d{2}:\d{2}) UTC`
at the current position, yielding the five captured numbers. -/
def matchAccessAt (cs : List Char) : Option (Nat × Nat × Nat × Nat × Nat) := do
  let r0 ← dropLit "You will regain access on ".data cs
  let (y, r1) ← takeDigits 4 r0
  let r2 ← takeLit '-' r1
  let (mo, r3) ← takeDigits 2 r2
  let r4 ← takeLit '-' r3
  let (d, r5) ← takeDigits 2 r4
  let r6 ← dropLit " at ".data r5
  let (h, r7) ← takeDigits 2 r6
  let r8 ← takeLit ':' r7
  let (mi, r9) ← takeDigits 2 r8
  let _ ← dropLit " UTC".data r9
  some (y, mo, d, h, mi)

/-- Leftmost occurrence of the Anthropic reset-time pattern (`re.search`). -/
def findAccess : List Char → Option (Nat × Nat × Nat × Nat × Nat)
  | [] => none
  | c :: cs =>
      match matchAccessAt (c :: cs) with
      | some r => some r
      | none => findAccess cs

/-- Maximal leading run satisfying `p`, requiring at least one char. -/
def takeRun1 (p : Char → Bool) (cs : List Char) :
    Option (List Char × List Char) :=
  match cs.span p with
  | (run, rest) => if run.isEmpty then none else some (run, rest)

/-- Match `retry[- ]?after[:\s]+(\d+)` case-insensitively at the current
position (the optional separator is tried greedily, as the regex engine
does). -/
def matchRetryAt (cs : List Char) : Option Nat :=
  let low := cs.map Char.toLower
  match dropLit "retry".data low with
  | none => none
  | some r0 =>
    let afterSep :=
      match r0 with
      | c :: rest => if c == '-' || c == ' ' then some rest else none
      | [] => none
    let tail (r : List Char) : Option Nat := do
      let r1 ← dropLit "after".data r
      let (_, r2) ← takeRun1 (fun c => c == ':' || pyIsSpaceChar c) r1
      let (digits, _) ← takeRun1 (fun c => '0' ≤ c && c ≤ '9') r2
      some (natFromDigits (String.mk digits))
    match afterSep with
    | some r =>
      match tail r with
      | some n => some n
      | none => tail r0
    | none => tail r0

/-- Leftmost match of the `retry-after` marker (`re.search`, IGNORECASE). -/
def findRetryAfter : List Char → Option Nat
  | [] => none
  | c :: cs =>
      match matchRetryAt (c :: cs) with
      | some r => some r
      | none => findRetryAfter cs

/-- The `reset_time` slot of a rate-limited result: the code stores the ISO
string when the parsed reset lies in the future, otherwise the datetime
object itself stays in the slot (sync.py:1477-1489), or nothing. -/
inductive ResetVal where
  | iso (s : String)
  | dt (v : PyDateTime)
deriving DecidableEq, Repr

/-- The rate-limited note result assembled at sync.py:1498-1508. -/
structure RateLimitInfo where
  status : String
  retry_after : Int
  reset_time : Option ResetVal
  provider_message : String
deriving DecidableEq, Repr

/-- First line of a string (`s.split('\n')[0]`). -/
def firstLine (s : String) : String :=
  String.mk (s.data.takeWhile (fun c => c != '\n'))

/-- The rate-limit trigger (sync.py:1457): the lowercased error text
contains one of the four marker substrings. -/
def isRateLimitText (s : String) : Bool :=
  let low := pyLower s
  pyIn "http/1.1 400 bad request" low || pyIn "rate limit" low ||
    pyIn "too many requests" low || pyIn "usage limits" low

/-- The Anthropic reset-timestamp parse (sync.py:1469-1480): the leftmost
pattern occurrence, validated through the `datetime` constructor (an
out-of-range capture raises inside the `try` and is discarded). -/
def parseResetCivil (errText : String) : Option Civil :=
  match findAccess errText.data with
  | some (y, mo, d, h, mi) =>
      if civilValid ⟨y, mo, d, h, mi, 0⟩ then some (Civil.mk y mo d h mi 0)
      else none
  | none => none

/-- Model of the rate-limit branch of `process_note`'s generic exception
handler (sync.py:1455-1508).  `now` is the POSIX reading of
`datetime.now(timezone.utc)`.  Priority as implemented: a parsed reset
timestamp strictly in the future sets `retry_after` to the truncated
second difference and `reset_time` to the ISO string; whenever
`retry_after` still equals the default 60 afterwards, a `retry-after: N`
marker overrides it. -/
def classifyRateLimit (errText : String) (now : Int) : Option RateLimitInfo :=
  if isRateLimitText errText then
    let parsed := parseResetCivil errText
    let step1 : Int × Option ResetVal :=
      match parsed with
      | some c =>
          if epochSeconds c > now then
            (epochSeconds c - now, some (.iso (isoformatUTC c)))
          else (60, some (.dt ⟨c, true⟩))
      | none => (60, none)
    let retry2 : Int :=
      if step1.1 == 60 then
        match findRetryAfter errText.data with
        | some n => (n : Int)
        | none => step1.1
      else step1.1
    some { status := "rate_limited", retry_after := retry2,
           reset_time := step1.2, provider_message := firstLine errText }
  else none

/-- What `process_note` does with an exception raised by episode creation
(sync.py:1440-1514): an `InfrastructureError` yields an
`infrastructure_error` result with `cancel_sync`; any other exception is
classified as rate-limited when the text matches, else re-raised. -/
inductive NoteErrorOutcome where
  | infraResult (provider_message : String)
  | rateLimited (info : RateLimitInfo)
  | reraised
deriving DecidableEq, Repr

/-- Dispatch of `process_note`'s two exception handlers. -/
def processNoteError (isInfrastructure : Bool) (errText : String)
    (now : Int) : NoteErrorOutcome :=
  if isInfrastructure then .infraResult errText
  else
    match classifyRateLimit errText now with
    | some info => .rateLimited info
    | none => .reraised

/-! ## Episode construction (sync.py:1592-1781) -/

/-- The keyword arguments both constructors hand to `graphiti.add_episode`.
`source` is always `EpisodeType.text`; schema fields are `[]` for generic
episodes (the kwargs are simply absent there, which the empty list
models). -/
structure EpisodeKwargs where
  name : String
  episode_body : String
  source_description : String
  reference_time : PyDateTime
  group_id : Option String
  entity_types : List String
  edge_types : List String
  edge_type_map : List ((String × String) × List String)
  previous_episode_uuids : Option (List String)
  custom_extraction_instructions : Option String
  saga : Option String
  saga_previous_episode_uuid : Option String
deriving DecidableEq, Repr

/-- Frontmatter merged back into the body as a `---` block
(sync.py:1621-1637): one `k: str(v)` line per entry (dict/list values would
go through `json.dumps`; the modelled scalar values all take the `str`
branch), then the body below the closing `---`. -/
def mergedBody (clean_text : String) (metadata : Option FM) : String :=
  match metadata with
  | some m =>
      if m.isEmpty then clean_text
      else
        String.intercalate "\n"
            (["---"] ++ m.map (fun p => p.1 ++ ": " ++ pyStr p.2) ++ ["---"])
          ++ "\n" ++ clean_text
  | none => clean_text

/-- `source_description` selection (sync.py:1609-1617): the frontmatter
`type` when present and truthy, else the configured value. -/
def sourceDescriptionOf (cfg : BridgeConfig) (metadata : Option FM) : String :=
  match metadata with
  | some m =>
    match fmGet "type" m with
    | some v => if pyTruthy v then pyStr v else cfg.source_description
    | none => cfg.source_description
  | none => cfg.source_description

/-- Option made `none` when the carried string is falsy, modelling the
`if x:` guards before optional kwargs are attached. -/
def optTruthy : Option String → Option String
  | some s => if s != "" then some s else none
  | none => none

/-- Model of `create_generic_text_episode` (sync.py:1592-1681): the kwargs
it passes to `graphiti.add_episode`.  `group_id` is attached only for the
Neo4j backend; optional kwargs are attached only when truthy. -/
def create_generic_text_episode (note_name clean_text : String)
    (reference_time : PyDateTime) (group_id : String)
    (database_type : String) (cfg : BridgeConfig) (metadata : Option FM)
    (custom_extraction_instructions : Option String)
    (saga_name saga_previous_uuid : Option String) : EpisodeKwargs :=
  { name := note_name
    episode_body := mergedBody clean_text metadata
    source_description := sourceDescriptionOf cfg metadata
    reference_time := formatReferenceTime reference_time
    group_id := if pyLower database_type == "neo4j" then some group_id else none
    entity_types := []
    edge_types := []
    edge_type_map := []
    previous_episode_uuids :=
      if cfg.previous_episode_uuids.isEmpty then none
      else some cfg.previous_episode_uuids
    custom_extraction_instructions := optTruthy custom_extraction_instructions
    saga := optTruthy saga_name
    saga_previous_episode_uuid := optTruthy saga_previous_uuid }

/-- How a custom-entity episode attempt ends: a successful custom
submission, or a fall-back generic submission (with the warning log exactly
when the custom path raised). -/
inductive EpisodeAttempt where
  | customKw (k : EpisodeKwargs)
  | genericKw (warned : Bool) (k : EpisodeKwargs)
deriving DecidableEq, Repr

/-- Model of `create_custom_entity_episode` (sync.py:1683-1781).  The
loaded schema is `entity_types`/`edge_types`/`edge_type_map`;
`customRaises` models `graphiti.add_episode` (or anything following the
schema load inside the `try`) raising.  An empty entity set falls back to the
generic constructor silently; an exception falls back with a warning; both
fallback calls pass no `metadata` (so the generic body is the bare text
and the source description comes from the config). -/
def create_custom_entity_episode (note_name clean_text : String)
    (reference_time : PyDateTime) (group_id : String) (metadata : FM)
    (database_type : String) (cfg : BridgeConfig)
    (custom_extraction_instructions : Option String)
    (saga_name saga_previous_uuid : Option String)
    (entity_types : List String) (edge_types : List String)
    (edge_type_map : List ((String × String) × List String))
    (customRaises : Bool) : EpisodeAttempt :=
  let fallback :=
    create_generic_text_episode note_name clean_text reference_time group_id
      database_type cfg none custom_extraction_instructions saga_name
      saga_previous_uuid
  if entity_types.isEmpty then .genericKw false fallback
  else if customRaises then .genericKw true fallback
  else
    .customKw
      { name := note_name
        episode_body := mergedBody clean_text (some metadata)
        source_description := sourceDescriptionOf cfg (some metadata)
        reference_time := formatReferenceTime reference_time
        group_id :=
          if pyLower database_type == "neo4j" then some group_id else none
        entity_types := entity_types
        edge_types := edge_types
        edge_type_map := edge_type_map
        previous_episode_uuids :=
          if cfg.previous_episode_uuids.isEmpty then none
          else some cfg.previous_episode_uuids
        custom_extraction_instructions :=
          optTruthy custom_extraction_instructions
        saga := optTruthy saga_name
        saga_previous_episode_uuid := optTruthy saga_previous_uuid }

/-! ## The single-note pipeline `process_note` (sync.py:1240-1435) -/

/-- First original-order mapping whose lowercased, slash-right-stripped
`folderPath` plus `/` is a case-insensitive path prefix of the relative
path; used by both the custom-instruction and the saga block of
`process_note` (sync.py:1305-1311 and 1330-1336). -/
def findRelMapping (rel_path : String) (mappings : List FolderMapping) :
    Option FolderMapping :=
  mappings.find? (fun m =>
    m.folderPath != "" &&
      startsWithStr (pyLower rel_path)
        (pyLower (rstripSlash m.folderPath) ++ "/"))

/-- Custom-instruction resolution inside `process_note`
(sync.py:1302-1316): a matching mapping's truthy instructions, else the
truthy global instructions. -/
def resolveCustomInstructions (note_path : String) (cfg : BridgeConfig) :
    Option String :=
  let globalIns := optTruthy cfg.global_extraction_instructions
  if cfg.folder_namespace_mappings.isEmpty then globalIns
  else
    match findRelMapping (relPathForMapping note_path cfg.vault_path)
        cfg.folder_namespace_mappings with
    | some m =>
      match optTruthy m.customExtractionInstructions with
      | some i => some i
      | none => globalIns
    | none => globalIns

/-- Saga-name resolution inside `process_note` (sync.py:1318-1341): only a
matching folder mapping produces a saga; its `sagaGrouping` defaults to
`byNoteType`. -/
def resolveSagaForNote (note_path : String) (cfg : BridgeConfig)
    (metadata : FM) (group_id : String) : Option String :=
  if cfg.folder_namespace_mappings.isEmpty then none
  else
    match findRelMapping (relPathForMapping note_path cfg.vault_path)
        cfg.folder_namespace_mappings with
    | some m =>
        resolve_saga_name (m.sagaGrouping.getD "byNoteType")
          m.sagaPropertyKey group_id (fmGet "type" metadata) metadata
    | none => none

/-- Model of `pathlib.Path(p).stem`: the final path component without its
last extension (a leading dot alone does not start an extension). -/
def pathStem (p : String) : String :=
  let name := String.mk ((splitOnChar '/' (asPosix p).data).getLastD [])
  let cs := name.data
  if cs.contains '.' then
    let sufLen := (cs.reverse.takeWhile (· != '.')).length
    let i := cs.length - sufLen - 1
    if 0 < i && 1 ≤ sufLen then String.mk (cs.take i) else name
  else name

/-- The slice of a `process_note` return value the claims inspect. -/
structure NoteResult where
  status : String
  namespace_ : String
  saga_name : Option String
deriving DecidableEq, Repr

/-- Model of the main path of `process_note` (sync.py:1240-1435) up to and
including episode submission.  Parameters stand for the effects the
function performs: `fileOk` for `validate_note_file` plus a readable file,
`content` for the file text, `fac` for the YAML facility, the two clocks
for `datetime.now()`/`datetime.now(timezone.utc)`, `syncLoad` for the
sync.json read, the schema lists for the loaded custom ontology, and
`customRaises`/`episodeSucceeds` for the graph call outcome.  `cleanTextFn`
abstracts `extract_text_content`'s markdown scrubbing (pure text surgery no
claim depends on).  The result pairs the returned value (`none` models
`return None`) with the list of `add_episode` submissions performed. -/
def process_note (note_path : String) (fileOk : Bool) (content : String)
    (fac : YamlFacility) (cfg : BridgeConfig) (nowLocal nowUtc : Civil)
    (syncLoad : SyncLoadOutcome) (entity_types edge_types : List String)
    (edge_type_map : List ((String × String) × List String))
    (customRaises : Bool) (cleanTextFn : String → String)
    (episodeSucceeds : Bool) : Option NoteResult × List EpisodeAttempt :=
  if !fileOk then (none, [])
  else
    let metadata := (extract_frontmatter fac content).1
    let clean_text := cleanTextFn content
    let note_name := pathStem note_path
    if pyTruthy ((fmGet "private" metadata).getD (.bool false)) then (none, [])
    else
      let database_type := cfg.database_type
      let reference_time :=
        extract_reference_time metadata database_type nowLocal nowUtc
      let group_id :=
        if cfg.group_id != "" then cfg.group_id
        else resolve_namespace note_path metadata cfg
      let custom_instructions := resolveCustomInstructions note_path cfg
      let saga_name := resolveSagaForNote note_path cfg metadata group_id
      let saga_previous_uuid :=
        match optTruthy saga_name with
        | some s => lookup_saga_previous_uuid s (load_sync_records syncLoad)
        | none => none
      let attempt :=
        if cfg.use_custom_ontology then
          create_custom_entity_episode note_name clean_text reference_time
            group_id metadata database_type cfg custom_instructions saga_name
            saga_previous_uuid entity_types edge_types edge_type_map
            customRaises
        else
          .genericKw false
            (create_generic_text_episode note_name clean_text reference_time
              group_id database_type cfg (some metadata) custom_instructions
              saga_name saga_previous_uuid)
      let status := if episodeSucceeds then "success" else "failed"
      (some { status := status, namespace_ := group_id,
              saga_name := saga_name }, [attempt])

/-! ## WebSocket hub (websocket_server.py)

The hub's mutable maps are modelled as insertion-ordered association
lists.  A pending request's future is an explicit state; the `owner` field
is ghost data recording which client the request was sent to — the Python
map stores only `request_id → future` and never the owner, which is what
claim C2 is about. -/

/-- State of one `asyncio.Future` in the pending map. -/
inductive FutureSt where
  | pend
  | resolved
  | cancelled
deriving DecidableEq, Repr

/-- One entry of `self.pending_requests`. -/
structure PendingEntry where
  rid : String
  owner : String
  fut : FutureSt
deriving DecidableEq, Repr

/-- The `{success, payload, error, timestamp}` envelope a future is
resolved with (websocket_server.py:342-347). -/
structure Envelope where
  success : Bool
  payload : String
  error : Option String
  timestamp : Option String
deriving DecidableEq, Repr

/-- The hub state touched by the modelled handlers. -/
structure HubState where
  clients : List String
  vault_to_client : List (String × String)
  client_to_vault : List (String × String)
  vault_info : List (String × String)
  pending : List PendingEntry
deriving Repr

/-- Keys of the pending map. -/
def pendingKeys (st : HubState) : List String := st.pending.map (·.rid)

/-- A message arriving on a vault's WebSocket, as read by
`handle_message`. -/
structure WsMessage where
  msgType : Option String
  id : Option String
  success : Option Bool
  payload : Option String
  error : Option String
  timestamp : Option String
deriving Repr

/-- The envelope built at websocket_server.py:342-347 (`payload` defaults
to the empty dict, rendered here as `""`). -/
def envelopeOf (m : WsMessage) : Envelope :=
  { success := m.success.getD false
    payload := m.payload.getD ""
    error := m.error
    timestamp := m.timestamp }

/-- Python-dict assignment for the pending map: overwrite in place or
append (`self.pending_requests[request_id] = future`). -/
def pendingSet (e : PendingEntry) (l : List PendingEntry) : List PendingEntry :=
  if l.any (fun q => q.rid == e.rid) then
    l.map (fun q => if q.rid == e.rid then e else q)
  else l ++ [e]

/-- Hub effect of registering a fresh pending future inside
`request_file_operation` (websocket_server.py:404-405). -/
def startRequest (st : HubState) (rid owner : String) : HubState :=
  { st with pending := pendingSet ⟨rid, owner, .pend⟩ st.pending }

/-- Hub effect of the `'response' in msg_type` branch of `handle_message`
(websocket_server.py:336-354): when the id is truthy and present in the
map, its entry is popped, and a not-yet-done future is resolved with the
envelope.  Returns the new state and the resolution performed, if any. -/
def handle_response (st : HubState) (m : WsMessage) :
    HubState × Option (String × Envelope) :=
  match m.msgType, m.id with
  | some t, some rid =>
    if pyIn "response" t && rid != "" && (pendingKeys st).contains rid then
      let entry := st.pending.find? (fun e => e.rid == rid)
      let st' := { st with pending := st.pending.filter (fun e => e.rid != rid) }
      match entry with
      | some e =>
          if e.fut == FutureSt.pend then (st', some (rid, envelopeOf m))
          else (st', none)
      | none => (st, none)
    else (st, none)
  | _, _ => (st, none)

/-- Hub effect of the disconnect cleanup in `websocket_handler`'s `finally`
block (websocket_server.py:255-293): client and vault maps are cleared for
this client, then EVERY entry of the pending map whose future is not done
is popped and cancelled — the loop iterates the whole map and consults no
ownership.  Returns the new state and the cancelled request ids. -/
def disconnect (st : HubState) (cid : String) : HubState × List String :=
  let vaultOfClient := (st.client_to_vault.find? (fun p => p.1 == cid)).map (·.2)
  let toCancel := (st.pending.filter (fun e => e.fut == FutureSt.pend)).map (·.rid)
  ({ clients := st.clients.filter (fun c => c != cid)
     vault_info := st.vault_info.filter (fun p => p.1 != cid)
     client_to_vault := st.client_to_vault.filter (fun p => p.1 != cid)
     vault_to_client :=
       match vaultOfClient with
       | some v => st.vault_to_client.filter (fun p => p.1 != v)
       | none => st.vault_to_client
     pending := st.pending.filter (fun e => e.fut != FutureSt.pend) },
   toCancel)

/-- Hub effect of the `finally` block of `request_file_operation`
(websocket_server.py:438-440): `self.pending_requests.pop(request_id,
None)`. -/
def finishRequest (st : HubState) (rid : String) : HubState :=
  { st with pending := st.pending.filter (fun e => e.rid != rid) }

/-- Hub effect of the `register` branch of `handle_message`
(websocket_server.py:304-320). -/
def registerVault (st : HubState) (cid vaultName : String) : HubState :=
  let vaultId := if vaultName != "" then vaultName else "vault_" ++ cid
  { st with
    vault_info := (st.vault_info.filter (fun p => p.1 != cid)) ++ [(cid, vaultName)]
    client_to_vault :=
      (st.client_to_vault.filter (fun p => p.1 != cid)) ++ [(cid, vaultId)]
    vault_to_client :=
      (st.vault_to_client.filter (fun p => p.1 != vaultId)) ++ [(vaultId, cid)] }

/-- Client lookup of `request_file_operation`
(websocket_server.py:384-398): the vault map first, then the legacy scan of
`vault_info` by vault name or client id, and the found client must still be
connected. -/
def lookupClientForVault (st : HubState) (vault_id : String) : Option String :=
  let viaMap := (st.vault_to_client.find? (fun p => p.1 == vault_id)).map (·.2)
  let cid :=
    match viaMap with
    | some c => if c != "" then some c else none
    | none => none
  let cid' :=
    match cid with
    | some c => some c
    | none =>
      (st.vault_info.find? (fun p => p.2 == vault_id || p.1 == vault_id)).map (·.1)
  match cid' with
  | some c => if st.clients.contains c then some c else none
  | none => none

/-- One hub transition: the events that touch the modelled state. -/
inductive HubStep : HubState → HubState → Prop
  | connect (st : HubState) (cid : String) :
      HubStep st { st with clients := st.clients ++ [cid] }
  | register (st : HubState) (cid vaultName : String) :
      HubStep st (registerVault st cid vaultName)
  | start (st : HubState) (rid owner : String) :
      HubStep st (startRequest st rid owner)
  | response (st : HubState) (m : WsMessage) :
      HubStep st (handle_response st m).1
  | disc (st : HubState) (cid : String) :
      HubStep st (disconnect st cid).1
  | finish (st : HubState) (rid : String) :
      HubStep st (finishRequest st rid)

/-- Hub states reachable from the empty initial state. -/
inductive HubReachable : HubState → Prop
  | init : HubReachable ⟨[], [], [], [], []⟩
  | step {s s' : HubState} : HubReachable s → HubStep s s' → HubReachable s'

/-- How one `request_file_operation` call ends after registering its
future: the vault replied (the `handle_message` pop already ran), the wait
timed out, or some other exception surfaced. -/
inductive RfoOutcome where
  | reply (m : WsMessage)
  | timeout
  | failed (msg : String)
deriving Repr

/-- The value `request_file_operation` returns. -/
structure RfoResult where
  success : Option Bool
  error : Option String
  requestId : Option String
deriving DecidableEq, Repr

/-- Model of `request_file_operation` (websocket_server.py:382-440) as the
composition of its hub effects: look up the client (returning `none`
without touching the map when there is none), register the future, let the
outcome's own hub event run, and pop the future in the `finally` block on
every path.  `timeoutRepr` renders the float in the timeout message. -/
def request_file_operation (st : HubState) (vault_id rid : String)
    (outcome : RfoOutcome) (timeoutRepr : String) :
    HubState × Option RfoResult :=
  match lookupClientForVault st vault_id with
  | none => (st, none)
  | some cid =>
    let st1 := startRequest st rid cid
    let stMid :=
      match outcome with
      | .reply m => (handle_response st1 m).1
      | .timeout => st1
      | .failed _ => st1
    let res : RfoResult :=
      match outcome with
      | .reply m => { success := some ((envelopeOf m).success),
                      error := (envelopeOf m).error, requestId := none }
      | .timeout => { success := some false,
                      error := some ("Request timeout after " ++ timeoutRepr ++ "s"),
                      requestId := some rid }
      | .failed msg => { success := some false, error := some msg,
                         requestId := some rid }
    (finishRequest stMid rid, some res)

/-! ## HTTP `/rpc` handler (websocket_server.py:102-169) -/

/-- The parsed JSON body of an `/rpc` request. -/
structure RpcBody where
  operation : Option String
  vaultId : Option String
  timeoutMs : Option Nat
deriving Repr

/-- An incoming `/rpc` request as the handler reads it: the token after
`Bearer ` stripping (`""` when absent), the optional query token, the
`Content-Length` header when present (as its numeric value), the actual
body size in bytes, and the body's JSON parse (`none` = decode error). -/
structure RpcRequest where
  headerToken : String
  queryToken : String
  contentLengthHeader : Option Nat
  bodyBytes : Nat
  body : Option RpcBody
deriving Repr

/-- What the handler did and answered.  `bodyRead` records whether
`request.json()` consumed the body to completion (reading can abort
mid-stream on aiohttp's size cap); `dispatched` whether
`request_file_operation` was reached. -/
structure RpcResponse where
  status : Nat
  bodyRead : Bool
  dispatched : Bool
deriving DecidableEq, Repr

/-- The `client_max_size` of the endpoint: `web.Application()`
(websocket_server.py:24) is built with no override, so aiohttp's default
of 1 MiB applies.  `BaseRequest.read()` — called by `request.json()` —
raises `HTTPRequestEntityTooLarge` once the accumulated body reaches the
cap, whether or not a `Content-Length` header was sent. -/
def aiohttpClientMaxSize : Nat := 1024 * 1024

/-- The body of `rpc_handler`'s `try` block (websocket_server.py:124-155):
`await request.json()` first reads the body under aiohttp's
`client_max_size` — an oversized body raises `HTTPRequestEntityTooLarge`,
which is not a `JSONDecodeError` and so falls to the generic
`except Exception` answering 500 (websocket_server.py:164-169).  A body
within the cap is JSON-decoded (400 on decode error), `operation` is
validated (400 when missing or falsy), then the request is dispatched
through `request_file_operation` (404 when it returns `None`, else 200). -/
def rpcAfterSizeCheck (req : RpcRequest) (dispatchFound : Bool) : RpcResponse :=
  if aiohttpClientMaxSize ≤ req.bodyBytes then
    { status := 500, bodyRead := false, dispatched := false }
  else
    match req.body with
    | none => { status := 400, bodyRead := true, dispatched := false }
    | some b =>
      if (b.operation.getD "") == "" then
        { status := 400, bodyRead := true, dispatched := false }
      else if dispatchFound then
        { status := 200, bodyRead := true, dispatched := true }
      else { status := 404, bodyRead := true, dispatched := true }

/-- Model of `rpc_handler` (websocket_server.py:102-169).  Order of checks:
auth (401), then the `Content-Length` header against 2 MiB (413) — the
handler itself never measures the actual body; that is left to aiohttp's
cap inside the `try` block above.  `dispatchFound` models whether a
connected vault handled the request. -/
def rpc_handler (authToken : String) (req : RpcRequest)
    (dispatchFound : Bool) : RpcResponse :=
  let token := if req.headerToken != "" then req.headerToken else req.queryToken
  if authToken != "" && token != authToken then
    { status := 401, bodyRead := false, dispatched := false }
  else
    match req.contentLengthHeader with
    | some n =>
      if n > 2 * 1024 * 1024 then
        { status := 413, bodyRead := false, dispatched := false }
      else rpcAfterSizeCheck req dispatchFound
    | none => rpcAfterSizeCheck req dispatchFound

/-- The effective per-request timeout in milliseconds
(websocket_server.py:134): `min(timeout_ms / 1000 if timeout_ms else 20.0,
30.0)` seconds. -/
def rpcTimeoutMs (timeoutMs : Option Nat) : Nat :=
  min (match timeoutMs with
       | some t => if t != 0 then t else 20000
       | none => 20000) 30000

/-! ## Concrete instances used by the example theorems -/

/-- A config with folder namespacing on and one lowercase mapping; used to
probe case sensitivity of the folder match. -/
def cfgFolderLower : BridgeConfig :=
  { enable_property_namespacing := false
    enable_folder_namespacing := true
    folder_namespace_mappings := [⟨"projects", "p", none, none, none⟩]
    namespace_strategy := "vault"
    default_namespace := "d"
    vault_path := ""
    group_id := ""
    use_custom_ontology := false
    database_type := "neo4j"
    source_description := "obsidian_mm_default"
    global_extraction_instructions := none
    previous_episode_uuids := [] }

/-- The spec's worked namespace example: mapping `Projects/2025 → p25`,
strategy `vault`, default `books`. -/
def cfgFolder2025 : BridgeConfig :=
  { cfgFolderLower with
    folder_namespace_mappings := [⟨"Projects/2025", "p25", none, none, none⟩]
    default_namespace := "books" }

/-- The spec's worked saga example: two entries of one saga with uuids
`U1`/`U2` and increasing `last_sync`. -/
def specSagaRecords : List SyncRecord :=
  [⟨[⟨some "daily-books", some "U1", some "2030-01-01T00:00:00Z"⟩,
     ⟨some "daily-books", some "U2", some "2030-02-01T00:00:00Z"⟩]⟩]

/-- A reachable hub state: clients `A` and `B` connected, one request
`r1` in flight that was sent to client `A`. -/
def hubTwoClients : HubState :=
  { clients := ["A", "B"]
    vault_to_client := []
    client_to_vault := []
    vault_info := []
    pending := [⟨"r1", "A", .pend⟩] }

/-- The spec's rate-limit example text. -/
def rlSpecText : String :=
  "HTTP/1.1 400 Bad Request: your credit balance is too low\nYou will regain access on 2030-01-02 at 03:04 UTC"

/-- A provider text whose reset timestamp lies exactly 60 seconds in the
future of the chosen `now`, alongside a `retry-after` marker. -/
def rlEdgeText : String :=
  "rate limit: You will regain access on 1970-01-02 at 00:01 UTC retry-after: 5"

/-- A concrete YAML parser behaviour for the round-trip example: it parses
the block `k: v` to the singleton dict. -/
def kvParse : String → Option (Option FM) := fun s =>
  if s = "k: v" then some (some [("k", Val.str "v")]) else none

/-- A concrete successful `*response` message for request `r1`. -/
def respMsg : WsMessage :=
  { msgType := some "read_file_response", id := some "r1",
    success := some true, payload := some "data", error := none,
    timestamp := some "ts" }

/-- `hubTwoClients` after client `A` registers vault `V`. -/
def hubReg : HubState := registerVault hubTwoClients "A" "V"

/-- A well-formed `/rpc` request with a 3 MiB body declared by its
`Content-Length` header. -/
def rpcLargeDeclared : RpcRequest :=
  { headerToken := "", queryToken := "",
    contentLengthHeader := some (3 * 1024 * 1024),
    bodyBytes := 3 * 1024 * 1024,
    body := some { operation := some "read_obsidian_note",
                   vaultId := some "A", timeoutMs := none } }

/-- The same 3 MiB request sent without a `Content-Length` header
(chunked framing). -/
def rpcLargeChunked : RpcRequest :=
  { rpcLargeDeclared with contentLengthHeader := none }

end MegaMem

namespace MegaMem

/-! # Theorems

Helper lemmas about the stable descending sort, then one theorem per
claim. -/

theorem insertDescBy_perm {α : Type} (ltB : α → α → Bool) (e : α) :
    ∀ l : List α, List.Perm (insertDescBy ltB e l) (e :: l)
  | [] => by simp [insertDescBy]
  | x :: xs => by
      simp only [insertDescBy]
      split
      · exact List.Perm.refl _
      · exact (List.Perm.cons x (insertDescBy_perm ltB e xs)).trans
          (List.Perm.swap e x xs)

theorem sortFoldAux_perm {α : Type} (ltB : α → α → Bool) :
    ∀ (l acc : List α),
      List.Perm (l.foldl (fun a e => insertDescBy ltB e a) acc) (acc ++ l)
  | [], acc => by simp
  | x :: xs, acc => by
      simp only [List.foldl_cons]
      refine (sortFoldAux_perm ltB xs (insertDescBy ltB x acc)).trans ?_
      refine (List.Perm.append_right xs (insertDescBy_perm ltB x acc)).trans ?_
      exact List.perm_middle.symm

theorem sortDescBy_perm {α : Type} (ltB : α → α → Bool)
    (l : List α) : List.Perm (sortDescBy ltB l) l := by
  simpa [sortDescBy] using sortFoldAux_perm ltB l []

/-- A Boolean strict order is `DescOk` when it is asymmetric and its
complement is transitive; both Python comparators used by the code
(`len` on mapping paths and `<` on `last_sync` strings) satisfy this. -/
def DescOk {α : Type} (ltB : α → α → Bool) : Prop :=
  (∀ a b, ltB a b = true → ltB b a = false) ∧
    (∀ a b c, ltB a b = false → ltB b c = false → ltB a c = false)

theorem insertDescBy_pairwise {α : Type} {ltB : α → α → Bool}
    (ho : DescOk ltB) (e : α) : ∀ l : List α,
      List.Pairwise (fun a b => ltB a b = false) l →
      List.Pairwise (fun a b => ltB a b = false) (insertDescBy ltB e l)
  | [], _ => by simp [insertDescBy]
  | x :: xs, h => by
      rw [List.pairwise_cons] at h
      simp only [insertDescBy]
      split
      · rename_i hx
        refine List.pairwise_cons.mpr ⟨?_, List.pairwise_cons.mpr h⟩
        intro y hy
        rcases List.mem_cons.mp hy with rfl | hy'
        · exact ho.1 y e hx
        · exact ho.2 e x y (ho.1 x e hx) (h.1 y hy')
      · rename_i hx
        refine List.pairwise_cons.mpr
          ⟨?_, insertDescBy_pairwise ho e xs h.2⟩
        intro y hy
        rcases List.mem_cons.mp ((insertDescBy_perm ltB e xs).mem_iff.mp hy) with
          rfl | hy'
        · exact Bool.eq_false_iff.mpr hx
        · exact h.1 y hy'

theorem sortFoldAux_pairwise {α : Type} {ltB : α → α → Bool}
    (ho : DescOk ltB) :
    ∀ (l acc : List α),
      List.Pairwise (fun a b => ltB a b = false) acc →
      List.Pairwise (fun a b => ltB a b = false)
        (l.foldl (fun a e => insertDescBy ltB e a) acc)
  | [], _, h => h
  | x :: xs, acc, h =>
      sortFoldAux_pairwise ho xs (insertDescBy ltB x acc)
        (insertDescBy_pairwise ho x acc h)

theorem sortDescBy_pairwise {α : Type} {ltB : α → α → Bool}
    (ho : DescOk ltB) (l : List α) :
    List.Pairwise (fun a b => ltB a b = false) (sortDescBy ltB l) :=
  sortFoldAux_pairwise ho l [] List.Pairwise.nil

theorem DescOk.irrefl {α : Type} {ltB : α → α → Bool} (ho : DescOk ltB)
    (a : α) : ltB a a = false := by
  by_cases h : ltB a a = true
  · exact ho.1 a a h
  · exact Bool.eq_false_iff.mpr h

theorem find?_max_of_pairwise {α : Type} {ltB : α → α → Bool}
    (ho : DescOk ltB) {p : α → Bool} {l : List α} {m : α}
    (hp : List.Pairwise (fun a b => ltB a b = false) l)
    (hf : l.find? p = some m) : ∀ x ∈ l, p x = true → ltB m x = false := by
  induction l with
  | nil => simp at hf
  | cons a t ih =>
    rw [List.pairwise_cons] at hp
    by_cases hpa : p a = true
    · rw [List.find?_cons_of_pos _ hpa] at hf
      injection hf with hm
      subst hm
      intro x hx _
      rcases List.mem_cons.mp hx with rfl | hx'
      · exact ho.irrefl x
      · exact hp.1 x hx'
    · rw [List.find?_cons_of_neg _ (by simpa using hpa)] at hf
      intro x hx hpx
      rcases List.mem_cons.mp hx with rfl | hx'
      · exact absurd hpx hpa
      · exact ih hp.2 hf x hx' hpx

theorem head_max_of_pairwise {α : Type} {ltB : α → α → Bool}
    (ho : DescOk ltB) {x : α} {xs : List α}
    (hp : List.Pairwise (fun a b => ltB a b = false) (x :: xs)) :
    ∀ y ∈ x :: xs, ltB x y = false := by
  rw [List.pairwise_cons] at hp
  intro y hy
  rcases List.mem_cons.mp hy with rfl | hy'
  · exact ho.irrefl y
  · exact hp.1 y hy'

theorem listLtB_cons_cons (a b : Char) (as bs : List Char) :
    listLtB (a :: as) (b :: bs) =
      if a < b then true else if b < a then false else listLtB as bs := rfl

theorem listLtB_asymm : ∀ as bs, listLtB as bs = true → listLtB bs as = false
  | [], [] => by intro h; exact Bool.noConfusion h
  | [], _ :: _ => by intro _; rfl
  | _ :: _, [] => by intro h; exact Bool.noConfusion h
  | a :: as, b :: bs => by
      intro h
      rw [listLtB_cons_cons] at h
      rw [listLtB_cons_cons]
      by_cases hab : a < b
      · rw [if_neg (lt_asymm hab), if_pos hab]
      · rw [if_neg hab] at h
        by_cases hba : b < a
        · rw [if_pos hba] at h
          exact Bool.noConfusion h
        · rw [if_neg hba] at h
          rw [if_neg hba, if_neg hab]
          exact listLtB_asymm as bs h

theorem listLtB_nottrans :
    ∀ as bs cs, listLtB as bs = false → listLtB bs cs = false →
      listLtB as cs = false
  | [], bs, cs => by
      cases bs with
      | nil =>
        cases cs with
        | nil => intro _ _; rfl
        | cons c cs' => intro _ h2; exact Bool.noConfusion h2
      | cons b bs' => intro h1 _; exact Bool.noConfusion h1
  | _ :: _, [], cs => by
      cases cs with
      | nil => intro _ _; rfl
      | cons c cs' => intro _ h2; exact Bool.noConfusion h2
  | _ :: _, _ :: _, [] => by intro _ _; rfl
  | a :: as, b :: bs, c :: cs => by
      intro h1 h2
      rw [listLtB_cons_cons] at h1 h2
      rw [listLtB_cons_cons]
      by_cases hab : a < b
      · rw [if_pos hab] at h1
        exact absurd h1 (by simp)
      · rw [if_neg hab] at h1
        by_cases hbc : b < c
        · rw [if_pos hbc] at h2
          exact absurd h2 (by simp)
        · rw [if_neg hbc] at h2
          have hba : b ≤ a := not_lt.mp hab
          have hcb : c ≤ b := not_lt.mp hbc
          have hca : c ≤ a := le_trans hcb hba
          rw [if_neg (not_lt.mpr hca)]
          by_cases hc : c < a
          · rw [if_pos hc]
          · rw [if_neg hc]
            have hac : a = c := le_antisymm (not_lt.mp hc) hca
            subst hac
            have hb : b = a := le_antisymm hba hcb
            subst hb
            rw [if_neg (lt_irrefl b)] at h1 h2
            exact listLtB_nottrans as bs cs h1 h2

/-- The `last_sync` comparator of `lookup_saga_previous_uuid` is a valid
descending-sort comparator. -/
theorem lastSync_descOk :
    DescOk (fun e1 e2 : SyncEntry => pyStrLt (lastSyncKey e1) (lastSyncKey e2)) := by
  constructor
  · intro a b h
    exact listLtB_asymm _ _ h
  · intro a b c h1 h2
    exact listLtB_nottrans _ _ _ h1 h2

/-- The `len(folderPath)` comparator of `_resolve_custom_folder_mapping`
is a valid descending-sort comparator. -/
theorem folderLen_descOk :
    DescOk (fun m1 m2 : FolderMapping =>
      decide (m1.folderPath.length < m2.folderPath.length)) := by
  constructor
  · intro a b h
    simp only [decide_eq_true_eq] at h
    simp only [decide_eq_false_iff_not]
    omega
  · intro a b c h1 h2
    simp only [decide_eq_false_iff_not] at h1 h2 ⊢
    omega

/-- C4.  For every saga name and list of sync records, the lookup returns
the `episode_uuid` of a matching entry (saga name equal, uuid non-empty)
whose `last_sync` is greatest (in Python string order) among all matching
entries; it returns `None` exactly when no entry matches; and a missing
vault path, missing sync.json or unreadable/unparseable sync.json yields
`None`, never an error. -/
theorem lookup_saga_previous_uuid_correct :
    (∀ (saga : String) (records : List SyncRecord) (u : String),
        lookup_saga_previous_uuid saga records = some u →
        ∃ e ∈ allSyncEntries records, sagaEntryMatches saga e = true ∧
          e.episode_uuid = some u ∧
          ∀ e' ∈ allSyncEntries records, sagaEntryMatches saga e' = true →
            pyStrLe (lastSyncKey e') (lastSyncKey e) = true) ∧
    (∀ (saga : String) (records : List SyncRecord),
        lookup_saga_previous_uuid saga records = none ↔
          ∀ e ∈ allSyncEntries records, sagaEntryMatches saga e = false) ∧
    (∀ saga : String,
        lookup_saga_previous_uuid saga (load_sync_records .noVaultPath) = none ∧
        lookup_saga_previous_uuid saga (load_sync_records .missingFile) = none ∧
        lookup_saga_previous_uuid saga (load_sync_records .unreadable) = none) := by
  have hcmp := lastSync_descOk
  refine ⟨?_, ?_, ?_⟩
  · intro saga records u hu
    unfold lookup_saga_previous_uuid at hu
    set ltB := fun e1 e2 : SyncEntry =>
      pyStrLt (lastSyncKey e1) (lastSyncKey e2) with hltb
    set matching :=
      (allSyncEntries records).filter (sagaEntryMatches saga) with hmdef
    by_cases hemp : matching.isEmpty
    · simp [hemp] at hu
    · rw [if_neg hemp] at hu
      rcases hsort : sortDescBy ltB matching with _ | ⟨e, tl⟩
      · rw [hsort] at hu
        exact absurd hu (by simp)
      · rw [hsort] at hu
        have hperm := sortDescBy_perm ltB matching
        rw [hsort] at hperm
        have hemem : e ∈ matching := hperm.mem_iff.mp (List.mem_cons_self e tl)
        have hefil := List.mem_filter.mp hemem
        refine ⟨e, hefil.1, hefil.2, hu, ?_⟩
        intro e' he' hm'
        have hp := sortDescBy_pairwise hcmp matching
        rw [hsort] at hp
        have he'mem : e' ∈ matching :=
          List.mem_filter.mpr ⟨he', hm'⟩
        have hmax := head_max_of_pairwise hcmp hp e' (hperm.mem_iff.mpr he'mem)
        have hmax' : pyStrLt (lastSyncKey e) (lastSyncKey e') = false := hmax
        simp [pyStrLe, hmax']
  · intro saga records
    unfold lookup_saga_previous_uuid
    set ltB := fun e1 e2 : SyncEntry =>
      pyStrLt (lastSyncKey e1) (lastSyncKey e2) with hltb
    constructor
    · intro hnone e he
      by_contra hcon
      rw [Bool.not_eq_false] at hcon
      by_cases hemp :
          ((allSyncEntries records).filter (sagaEntryMatches saga)).isEmpty
      · rw [List.isEmpty_iff] at hemp
        have : e ∈ (allSyncEntries records).filter (sagaEntryMatches saga) :=
          List.mem_filter.mpr ⟨he, hcon⟩
        rw [hemp] at this
        exact absurd this (List.not_mem_nil e)
      · rw [if_neg hemp] at hnone
        rcases hsort : sortDescBy ltB
            ((allSyncEntries records).filter (sagaEntryMatches saga)) with
          _ | ⟨x, tl⟩
        · have hperm := sortDescBy_perm ltB
            ((allSyncEntries records).filter (sagaEntryMatches saga))
          rw [hsort] at hperm
          rw [List.isEmpty_iff] at hemp
          exact hemp hperm.nil_eq.symm
        · rw [hsort] at hnone
          have hxmem := (sortDescBy_perm ltB _).mem_iff.mp
            (by rw [hsort]; exact List.mem_cons_self x tl)
          have hxfil := List.mem_filter.mp hxmem
          have htr := hxfil.2
          unfold sagaEntryMatches entryUuidTruthy at htr
          rcases hxe : x.episode_uuid with _ | v
          · rw [hxe] at htr; simp at htr
          · have hnone' : x.episode_uuid = none := hnone
            rw [hxe] at hnone'
            exact Option.noConfusion hnone'
    · intro hall
      have : (allSyncEntries records).filter (sagaEntryMatches saga) = [] :=
        List.filter_eq_nil_iff.mpr (by intro a ha; simp [hall a ha])
      simp [this]
  · intro saga
    exact ⟨rfl, rfl, rfl⟩

/-- Witness for C4 at the spec's worked example: with two `daily-books`
entries whose `last_sync` values increase, the lookup returns `U2`, the
uuid of the later entry. -/
theorem lookup_saga_previous_uuid_correct_witness :
    ∃ e ∈ allSyncEntries specSagaRecords,
      sagaEntryMatches "daily-books" e = true ∧
        e.episode_uuid = some "U2" ∧
        ∀ e' ∈ allSyncEntries specSagaRecords,
          sagaEntryMatches "daily-books" e' = true →
            pyStrLe (lastSyncKey e') (lastSyncKey e) = true :=
  lookup_saga_previous_uuid_correct.1 "daily-books" specSagaRecords "U2"
    (by decide)

theorem resolveCustomFolderMapping_longest (rel : String)
    (mappings : List FolderMapping) (m : FolderMapping) (hm : m ∈ mappings)
    (hmatch : folderMatchPred rel m = true) :
    ∃ m' ∈ mappings, folderMatchPred rel m' = true ∧
      resolveCustomFolderMapping rel mappings = some m'.groupId ∧
      ∀ m'' ∈ mappings, folderMatchPred rel m'' = true →
        m''.folderPath.length ≤ m'.folderPath.length := by
  have hne : ¬ mappings.isEmpty = true := by
    cases mappings with
    | nil => exact absurd hm (List.not_mem_nil m)
    | cons a l => simp
  have hred : resolveCustomFolderMapping rel mappings =
      ((sortDescBy (fun m1 m2 : FolderMapping =>
          decide (m1.folderPath.length < m2.folderPath.length)) mappings).find?
        (folderMatchPred rel)).map (·.groupId) := by
    simp only [resolveCustomFolderMapping]
    rw [if_neg hne]
  rcases hf : (sortDescBy (fun m1 m2 : FolderMapping =>
      decide (m1.folderPath.length < m2.folderPath.length)) mappings).find?
        (folderMatchPred rel) with _ | m'
  · rw [List.find?_eq_none] at hf
    have hms : m ∈ sortDescBy (fun m1 m2 : FolderMapping =>
        decide (m1.folderPath.length < m2.folderPath.length)) mappings :=
      (sortDescBy_perm _ mappings).mem_iff.mpr hm
    exact absurd hmatch (hf m hms)
  · have hm'mem : m' ∈ mappings :=
      (sortDescBy_perm _ mappings).mem_iff.mp (List.mem_of_find?_eq_some hf)
    have hm'p : folderMatchPred rel m' = true := List.find?_some hf
    refine ⟨m', hm'mem, hm'p, by rw [hred, hf]; rfl, ?_⟩
    intro m'' hm'' hp''
    have hmax := find?_max_of_pairwise folderLen_descOk
      (sortDescBy_pairwise folderLen_descOk mappings) hf m''
      ((sortDescBy_perm _ mappings).mem_iff.mpr hm'') hp''
    simpa [decide_eq_false_iff_not, not_lt] using hmax

/-- C1 (amended).  When folder namespacing is enabled, property namespacing
yields nothing, and some mapping passes the (case-sensitive) folder match
against the vault-relative path — the vault prefix itself is stripped
case-insensitively inside `relPathForMapping` — then `resolve_namespace`
returns the `groupId` of a matching mapping of maximal raw `folderPath`
length. -/
theorem resolve_namespace_folder_longest (note_path : String) (metadata : FM)
    (cfg : BridgeConfig)
    (hen : cfg.enable_folder_namespacing = true)
    (hprop : propertyNamespace cfg metadata = none)
    (m : FolderMapping) (hm : m ∈ cfg.folder_namespace_mappings)
    (hmatch : folderMatchPred (relPathForMapping note_path cfg.vault_path) m
      = true) :
    ∃ m' ∈ cfg.folder_namespace_mappings,
      folderMatchPred (relPathForMapping note_path cfg.vault_path) m' = true ∧
      resolve_namespace note_path metadata cfg = m'.groupId ∧
      ∀ m'' ∈ cfg.folder_namespace_mappings,
        folderMatchPred (relPathForMapping note_path cfg.vault_path) m'' = true →
          m''.folderPath.length ≤ m'.folderPath.length := by
  obtain ⟨m', hmem, hp, heq, hmax⟩ :=
    resolveCustomFolderMapping_longest
      (relPathForMapping note_path cfg.vault_path)
      cfg.folder_namespace_mappings m hm hmatch
  refine ⟨m', hmem, hp, ?_, hmax⟩
  have hne : cfg.folder_namespace_mappings.isEmpty = false := by
    cases hl : cfg.folder_namespace_mappings with
    | nil => rw [hl] at hm; exact absurd hm (List.not_mem_nil m)
    | cons a l => simp
  simp [resolve_namespace, hprop, hen, hne, heq]

/-- Witness for the amended C1 at the spec's worked example: mapping
`Projects/2025 → p25`, vault-relative note path
`Projects/2025/notes/today.md`; the resolver returns `p25`. -/
theorem resolve_namespace_folder_longest_witness :
    ∃ m' ∈ cfgFolder2025.folder_namespace_mappings,
      folderMatchPred
        (relPathForMapping "Projects/2025/notes/today.md"
          cfgFolder2025.vault_path) m' = true ∧
      resolve_namespace "Projects/2025/notes/today.md" [] cfgFolder2025 =
        m'.groupId ∧
      ∀ m'' ∈ cfgFolder2025.folder_namespace_mappings,
        folderMatchPred
          (relPathForMapping "Projects/2025/notes/today.md"
            cfgFolder2025.vault_path) m'' = true →
          m''.folderPath.length ≤ m'.folderPath.length :=
  resolve_namespace_folder_longest "Projects/2025/notes/today.md" []
    cfgFolder2025 rfl (by decide)
    ⟨"Projects/2025", "p25", none, none, none⟩ (by decide) (by decide)

/-- Counterexample to C1 as stated: the claim calls the folder match
case-insensitive, but the code compares case-sensitively.  With mapping
`projects → p`, default namespace `d`, and vault-relative path
`Projects/a.md`, the claim's case-insensitive longest-prefix selection
(`folderMappingSpec`, written from the spec's words) picks `p`, while
`resolve_namespace` misses the mapping and falls back to `d`. -/
theorem resolve_namespace_case_counterexample :
    resolve_namespace "Projects/a.md" [] cfgFolderLower = "d" ∧
    folderMappingSpec (relPathForMapping "Projects/a.md" cfgFolderLower.vault_path)
      cfgFolderLower.folder_namespace_mappings = some "p" ∧
    ("d" : String) ≠ "p" := by
  refine ⟨by decide, by decide, by decide⟩

/-- C8.  Frontmatter extraction recognises the `---`-delimited block of the
note `---\nk: v\n---\nbody` and round-trips it to `({k: "v"}, "body")`,
both through the minimal fallback parser and through any YAML facility
that parses `k: v` to the singleton dict; and the fallback parser strips
surrounding quotes and converts `true`/integer/float literals. -/
theorem extract_frontmatter_roundtrip :
    (extract_frontmatter .fallbackOnly "---\nk: v\n---\nbody" =
      ([("k", Val.str "v")], "body")) ∧
    (∀ parse : String → Option (Option FM),
        parse "k: v" = some (some [("k", Val.str "v")]) →
        extract_frontmatter (.yaml parse) "---\nk: v\n---\nbody" =
          ([("k", Val.str "v")], "body")) ∧
    (parse_simple_frontmatter "a: \"q\"\nb: true\nc: 7\nd: 1.5" =
      some [("a", Val.str "q"), ("b", Val.bool true), ("c", Val.int 7),
            ("d", Val.float "1.5")]) := by
  refine ⟨by decide, ?_, by decide⟩
  intro parse hp
  have hm : fmMatch ("---\nk: v\n---\nbody").data =
      some ("k: v".data, "body".data) := by decide
  simp only [extract_frontmatter, hm]
  rw [show String.mk ("k: v".data) = "k: v" from rfl, hp]

/-- Witness for C8's quantified clause at the concrete parser `kvParse`. -/
theorem extract_frontmatter_roundtrip_witness :
    extract_frontmatter (.yaml kvParse) "---\nk: v\n---\nbody" =
      ([("k", Val.str "v")], "body") :=
  extract_frontmatter_roundtrip.2.1 kvParse (by decide)

/-- C10.  `extract_frontmatter` is total by construction (every exception
source — the YAML parse and the fallback parser's `float` conversion — is
modelled as an `Option` and both are caught), and it is atomic on parse
failure: when a top-of-file `---` block is present but its contents raise
during parsing, the result is the empty mapping together with the original
content unchanged, for the YAML path and the fallback path alike. -/
theorem extract_frontmatter_atomic_on_failure :
    (∀ (content : String) (parse : String → Option (Option FM))
        (block rest : List Char),
        fmMatch content.data = some (block, rest) →
        parse (String.mk block) = none →
        extract_frontmatter (.yaml parse) content = ([], content)) ∧
    (∀ (content : String) (block rest : List Char),
        fmMatch content.data = some (block, rest) →
        parse_simple_frontmatter (String.mk block) = none →
        extract_frontmatter .fallbackOnly content = ([], content)) := by
  constructor
  · intro content parse block rest hm hp
    simp only [extract_frontmatter, hm, hp]
  · intro content block rest hm hp
    simp only [extract_frontmatter, hm, hp]

/-- Witness for C10: the note `---\na: 1.2.3\n---\nbody` has a recognised
frontmatter block whose value `1.2.3` makes the fallback parser's float
conversion raise; extraction returns the original content unchanged. -/
theorem extract_frontmatter_atomic_on_failure_witness :
    extract_frontmatter .fallbackOnly "---\na: 1.2.3\n---\nbody" =
      ([], "---\na: 1.2.3\n---\nbody") :=
  extract_frontmatter_atomic_on_failure.2 "---\na: 1.2.3\n---\nbody"
    ("a: 1.2.3".data) ("body".data) (by decide) (by decide)

/-- C9.  A note whose extracted frontmatter carries a truthy `private` key
is skipped silently: `process_note` returns `None` and performs no episode
submission at all, for every configuration, backend, schema, clock and
sync state. -/
theorem process_note_private_skip (note_path content : String)
    (fac : YamlFacility) (cfg : BridgeConfig) (nowLocal nowUtc : Civil)
    (syncLoad : SyncLoadOutcome) (ets edts : List String)
    (etm : List ((String × String) × List String)) (raises : Bool)
    (ctf : String → String) (es : Bool) (v : Val)
    (hv : fmGet "private" (extract_frontmatter fac content).1 = some v)
    (ht : pyTruthy v = true) :
    process_note note_path true content fac cfg nowLocal nowUtc syncLoad
      ets edts etm raises ctf es = (none, []) := by
  simp [process_note, hv, ht]

/-- Witness for C9: a note with `private: true` in its frontmatter is
skipped. -/
theorem process_note_private_skip_witness :
    process_note "n.md" true "---\nprivate: true\n---\nsecret" .fallbackOnly
      cfgFolderLower ⟨2026, 1, 1, 0, 0, 0⟩ ⟨2026, 1, 1, 0, 0, 0⟩ .missingFile
      [] [] [] false id true = (none, []) :=
  process_note_private_skip "n.md" "---\nprivate: true\n---\nsecret"
    .fallbackOnly cfgFolderLower ⟨2026, 1, 1, 0, 0, 0⟩ ⟨2026, 1, 1, 0, 0, 0⟩
    .missingFile [] [] [] false id true (Val.bool true) (by decide) (by decide)

theorem formatReferenceTime_utc (dt : PyDateTime) :
    (formatReferenceTime dt).utc = true := by
  unfold formatReferenceTime
  by_cases h : dt.utc
  · rw [if_pos h]; exact h
  · rw [if_neg h]

/-- C3 (amended).  The reference time actually attached to every submitted
episode is timezone-aware for both backends (naive values are labelled UTC
at submission); a parsed date-only string becomes midnight, naive; the
scan prefers the `date` field; a parsed value is made aware inside
`extract_reference_time` itself only for FalkorDB; and when no field
yields a value, FalkorDB gets the current UTC clock while every other
backend (Neo4j included) gets the current naive LOCAL wall clock — not the
current UTC time. -/
theorem extract_reference_time_characterization :
    (∀ (metadata : FM) (db : String) (nL nU : Civil),
        (formatReferenceTime (extract_reference_time metadata db nL nU)).utc
          = true) ∧
    (∀ (metadata : FM) (nL nU : Civil),
        scanRefFields metadata refTimeFields = none →
        extract_reference_time metadata "falkordb" nL nU = ⟨nU, true⟩ ∧
        ∀ db : String, db ≠ "falkordb" →
          extract_reference_time metadata db nL nU = ⟨nL, false⟩) ∧
    (∀ (s : String) (dt : PyDateTime), strptimeDate s = some dt →
        dt.civil.hour = 0 ∧ dt.civil.minute = 0 ∧ dt.civil.second = 0 ∧
          dt.utc = false) ∧
    (∀ (metadata : FM) (db : String) (nL nU : Civil) (dt : PyDateTime),
        scanRefFields metadata refTimeFields = some dt →
        extract_reference_time metadata db nL nU =
          (if db == "falkordb" then formatReferenceTime dt else dt)) ∧
    (∀ (metadata : FM) (v : Val) (dt : PyDateTime),
        fmGet "date" metadata = some v → pyTruthy v = true →
        refTimeFromVal v = some dt →
        scanRefFields metadata refTimeFields = some dt) := by
  refine ⟨?_, ?_, ?_, ?_, ?_⟩
  · intro metadata db nL nU
    exact formatReferenceTime_utc _
  · intro metadata nL nU h
    constructor
    · simp [extract_reference_time, h]
    · intro db hdb
      have hne : (db == "falkordb") = false := beq_eq_false_iff_ne.mpr hdb
      simp [extract_reference_time, h, hne]
  · intro s dt h
    simp only [strptimeDate, Option.bind_eq_bind, Option.bind_eq_some] at h
    obtain ⟨⟨y, r1⟩, _, r2, _, ⟨mo, r3⟩, _, r4, _, ⟨d, r5⟩, _, h⟩ := h
    split at h
    · injection h with h'
      subst h'
      exact ⟨rfl, rfl, rfl, rfl⟩
    · exact absurd h (by simp)
  · intro metadata db nL nU dt h
    by_cases hdb : (db == "falkordb") = true
    · by_cases hutc : dt.utc = true
      · simp [extract_reference_time, h, hdb, hutc, formatReferenceTime]
      · simp only [Bool.not_eq_true] at hutc
        simp [extract_reference_time, h, hdb, hutc, formatReferenceTime]
    · simp only [Bool.not_eq_true] at hdb
      simp [extract_reference_time, h, hdb]
  · intro metadata v dt hv ht hp
    simp [scanRefFields, refTimeFields, hv, ht, hp]

/-- Witness for the amended C3 at concrete inputs: the Neo4j fallback is
the local clock, the FalkorDB fallback the UTC clock, and `2020-05-06`
parses to naive midnight. -/
theorem extract_reference_time_characterization_witness :
    (extract_reference_time [] "falkordb" ⟨2026, 1, 1, 12, 0, 0⟩
        ⟨2026, 1, 1, 10, 0, 0⟩ = ⟨⟨2026, 1, 1, 10, 0, 0⟩, true⟩ ∧
      extract_reference_time [] "neo4j" ⟨2026, 1, 1, 12, 0, 0⟩
        ⟨2026, 1, 1, 10, 0, 0⟩ = ⟨⟨2026, 1, 1, 12, 0, 0⟩, false⟩) ∧
    ((⟨⟨2020, 5, 6, 0, 0, 0⟩, false⟩ : PyDateTime).civil.hour = 0 ∧
      (⟨⟨2020, 5, 6, 0, 0, 0⟩, false⟩ : PyDateTime).civil.minute = 0 ∧
      (⟨⟨2020, 5, 6, 0, 0, 0⟩, false⟩ : PyDateTime).civil.second = 0 ∧
      (⟨⟨2020, 5, 6, 0, 0, 0⟩, false⟩ : PyDateTime).utc = false) := by
  have h2 := extract_reference_time_characterization.2.1 ([] : FM)
    ⟨2026, 1, 1, 12, 0, 0⟩ ⟨2026, 1, 1, 10, 0, 0⟩ (by decide)
  have h3 := extract_reference_time_characterization.2.2.1 "2020-05-06"
    ⟨⟨2020, 5, 6, 0, 0, 0⟩, false⟩ (by decide)
  exact ⟨⟨h2.1, h2.2 "neo4j" (by decide)⟩, h3⟩

/-- Counterexample to C3 as stated: for the Neo4j backend with no
date-bearing frontmatter, the reference time is the current naive LOCAL
wall clock (here 12:00) which submission then labels UTC; it is not the
current UTC time (here 10:00), so "absent value → current UTC time ... for
both database backends" fails. -/
theorem extract_reference_time_counterexample :
    extract_reference_time [] "neo4j" ⟨2026, 10, 12, 12, 0, 0⟩
        ⟨2026, 10, 12, 10, 0, 0⟩ = ⟨⟨2026, 10, 12, 12, 0, 0⟩, false⟩ ∧
    formatReferenceTime ⟨⟨2026, 10, 12, 12, 0, 0⟩, false⟩ =
      ⟨⟨2026, 10, 12, 12, 0, 0⟩, true⟩ ∧
    (⟨⟨2026, 10, 12, 12, 0, 0⟩, true⟩ : PyDateTime) ≠
      ⟨⟨2026, 10, 12, 10, 0, 0⟩, true⟩ := by
  refine ⟨by decide, by decide, by decide⟩

/-- C5 (amended).  An exception from episode creation that is not an
`InfrastructureError` and whose text carries rate-limit markers yields a
`rate_limited` result whose `provider_message` is the unmodified leading
line; when the provider text carries a parseable reset timestamp strictly
in the future whose distance from now is not exactly the 60-second
default, `retry_after` is that distance and `reset_time` its ISO 8601
rendering; when no timestamp parses, `retry_after` comes from a
`retry-after: N` marker, else the 60-second default, and `reset_time` is
empty. -/
theorem rate_limit_classification (errText : String) (now : Int)
    (h : isRateLimitText errText = true) :
    ∃ info, processNoteError false errText now = .rateLimited info ∧
      classifyRateLimit errText now = some info ∧
      info.status = "rate_limited" ∧
      info.provider_message = firstLine errText ∧
      (∀ c : Civil, parseResetCivil errText = some c →
          epochSeconds c > now → epochSeconds c - now ≠ 60 →
          info.retry_after = epochSeconds c - now ∧
          info.reset_time = some (.iso (isoformatUTC c))) ∧
      (parseResetCivil errText = none →
          info.reset_time = none ∧
          info.retry_after = (match findRetryAfter errText.data with
                              | some n => (n : Int)
                              | none => 60)) := by
  have hdispatch : ∀ i, classifyRateLimit errText now = some i →
      processNoteError false errText now = .rateLimited i := by
    intro i hi
    simp [processNoteError, hi]
  rcases hpc : parseResetCivil errText with _ | c
  · have hcl : classifyRateLimit errText now = some ⟨"rate_limited",
        (match findRetryAfter errText.data with
         | some n => (n : Int) | none => 60), none, firstLine errText⟩ := by
      rcases hra : findRetryAfter errText.data with _ | n <;>
        simp [classifyRateLimit, h, hpc, hra]
    refine ⟨_, hdispatch _ hcl, hcl, rfl, rfl, ?_, ?_⟩
    · intro c hc
      exact absurd hc (by simp)
    · intro _
      exact ⟨rfl, rfl⟩
  · by_cases hfut : epochSeconds c > now
    · by_cases hneq : epochSeconds c - now = 60
      · have hcl : classifyRateLimit errText now = some ⟨"rate_limited",
            (match findRetryAfter errText.data with
             | some n => (n : Int) | none => epochSeconds c - now),
            some (.iso (isoformatUTC c)), firstLine errText⟩ := by
          rcases hra : findRetryAfter errText.data with _ | n <;>
            simp [classifyRateLimit, h, hpc, hfut, hneq, hra]
        refine ⟨_, hdispatch _ hcl, hcl, rfl, rfl, ?_, ?_⟩
        · intro c' hc' _ hneq'
          injection hc' with hcc
          subst hcc
          exact absurd hneq hneq'
        · intro habs
          exact absurd habs (by simp)
      · have hbeq : (epochSeconds c - now == 60) = false :=
          beq_eq_false_iff_ne.mpr hneq
        have hcl : classifyRateLimit errText now = some ⟨"rate_limited",
            epochSeconds c - now, some (.iso (isoformatUTC c)),
            firstLine errText⟩ := by
          simp [classifyRateLimit, h, hpc, hfut, hbeq]
        refine ⟨_, hdispatch _ hcl, hcl, rfl, rfl, ?_, ?_⟩
        · intro c' hc' _ _
          injection hc' with hcc
          subst hcc
          exact ⟨rfl, rfl⟩
        · intro habs
          exact absurd habs (by simp)
    · have hcl : classifyRateLimit errText now = some ⟨"rate_limited",
          (match findRetryAfter errText.data with
           | some n => (n : Int) | none => 60),
          some (.dt ⟨c, true⟩), firstLine errText⟩ := by
        rcases hra : findRetryAfter errText.data with _ | n <;>
          simp [classifyRateLimit, h, hpc, hfut, hra]
      refine ⟨_, hdispatch _ hcl, hcl, rfl, rfl, ?_, ?_⟩
      · intro c' hc' hfut' _
        injection hc' with hcc
        subst hcc
        exact absurd hfut' hfut
      · intro habs
        exact absurd habs (by simp)

/-- Witness for the amended C5 at the spec's worked example: the provider
text announces a reset at 2030-01-02 03:04 UTC; from a 2026 `now` the
result is rate-limited with the exact second distance, the ISO reset
string, and the leading line as the provider message. -/
theorem rate_limit_classification_witness :
    ∃ info, processNoteError false rlSpecText 1760227200 =
        .rateLimited info ∧
      info.status = "rate_limited" ∧
      info.retry_after = 133326240 ∧
      info.retry_after ≥ 0 ∧
      info.reset_time = some (.iso "2030-01-02T03:04:00+00:00") ∧
      info.provider_message =
        "HTTP/1.1 400 Bad Request: your credit balance is too low" := by
  obtain ⟨info, h1, _, h3, h4, h5, _⟩ :=
    rate_limit_classification rlSpecText 1760227200 (by decide)
  obtain ⟨hr, hs⟩ := h5 ⟨2030, 1, 2, 3, 4, 0⟩ (by decide) (by decide) (by decide)
  refine ⟨info, h1, h3, hr.trans (by decide), ?_, hs.trans (by decide),
    h4.trans (by decide)⟩
  rw [hr]
  decide

/-- Counterexample to C5 as stated: the claim gives the reset timestamp
priority over the `retry-after` marker, but the code re-checks the marker
whenever `retry_after` still equals 60 — including when the future
timestamp itself yields exactly 60 seconds.  With a reset 60 s in the
future and a `retry-after: 5` marker, the code returns 5, not the
timestamp-derived 60. -/
theorem rate_limit_priority_counterexample :
    parseResetCivil rlEdgeText = some ⟨1970, 1, 2, 0, 1, 0⟩ ∧
    epochSeconds ⟨1970, 1, 2, 0, 1, 0⟩ > 86400 ∧
    epochSeconds ⟨1970, 1, 2, 0, 1, 0⟩ - 86400 = 60 ∧
    classifyRateLimit rlEdgeText 86400 =
      some ⟨"rate_limited", 5, some (.iso "1970-01-02T00:01:00+00:00"),
            rlEdgeText⟩ ∧
    (5 : Int) ≠ 60 := by
  refine ⟨by decide, by decide, by decide, by decide, by decide⟩

/-- C6 (amended).  With custom ontology active, an empty loaded entity set
or a raising custom submission falls back to a generic-text submission on
the same inputs; the warning is reported exactly when the custom path
raised (the empty-schema fallback is silent); and the fallback carries the
same `group_id` and the same (normalised) `reference_time` the custom
attempt would have carried. -/
theorem custom_entity_fallback (note_name clean_text : String)
    (rt : PyDateTime) (gid : String) (md : FM) (db : String)
    (cfg : BridgeConfig) (ci : Option String) (sn sp : Option String)
    (ets edts : List String) (etm : List ((String × String) × List String))
    (raises : Bool) (h : ets = [] ∨ raises = true) :
    ∃ w k, create_custom_entity_episode note_name clean_text rt gid md db cfg
        ci sn sp ets edts etm raises = .genericKw w k ∧
      k = create_generic_text_episode note_name clean_text rt gid db cfg none
        ci sn sp ∧
      (w = true ↔ (ets ≠ [] ∧ raises = true)) ∧
      k.group_id = (if pyLower db == "neo4j" then some gid else none) ∧
      k.reference_time = formatReferenceTime rt := by
  by_cases he : ets.isEmpty = true
  · have hnil : ets = [] := List.isEmpty_iff.mp he
    refine ⟨false, _, ?_, rfl, ?_, rfl, rfl⟩
    · simp [create_custom_entity_episode, he]
    · subst hnil
      simp
  · have hnil : ets ≠ [] := fun hcontra => he (by simp [hcontra])
    have hr : raises = true := by
      rcases h with h | h
      · exact absurd h hnil
      · exact h
    refine ⟨true, _, ?_, rfl, ?_, rfl, rfl⟩
    · simp [create_custom_entity_episode, he, hr]
    · simp [hnil, hr]

/-- Witness for the amended C6: with a raising custom submission the
result is the generic submission with the warning flag set, sharing
`group_id` and `reference_time` with the custom attempt. -/
theorem custom_entity_fallback_witness :
    ∃ w k, create_custom_entity_episode "note" "text"
        ⟨⟨2020, 1, 1, 0, 0, 0⟩, false⟩ "g1" [] "neo4j" cfgFolderLower none
        none none ["Person"] [] [] true = .genericKw w k ∧
      k = create_generic_text_episode "note" "text"
        ⟨⟨2020, 1, 1, 0, 0, 0⟩, false⟩ "g1" "neo4j" cfgFolderLower none none
        none none ∧
      (w = true ↔ ((["Person"] : List String) ≠ [] ∧ true = true)) ∧
      k.group_id = (if pyLower "neo4j" == "neo4j" then some "g1" else none) ∧
      k.reference_time = formatReferenceTime ⟨⟨2020, 1, 1, 0, 0, 0⟩, false⟩ :=
  custom_entity_fallback "note" "text" ⟨⟨2020, 1, 1, 0, 0, 0⟩, false⟩ "g1" []
    "neo4j" cfgFolderLower none none none ["Person"] [] [] true (Or.inr rfl)

/-- Counterexample to C6 as stated: the claim says the empty-entity-set
fallback also reports a warning, but the code falls back silently there —
the warning flag is `false`. -/
theorem custom_entity_fallback_counterexample :
    create_custom_entity_episode "n" "t" ⟨⟨2020, 1, 1, 0, 0, 0⟩, false⟩ "g"
        [] "neo4j" cfgFolderLower none none none [] [] [] false =
      .genericKw false
        (create_generic_text_episode "n" "t" ⟨⟨2020, 1, 1, 0, 0, 0⟩, false⟩
          "g" "neo4j" cfgFolderLower none none none none) ∧
    (false : Bool) ≠ true := by
  refine ⟨by decide, by decide⟩

/-- C7 (amended).  For an authenticated `/rpc` request: a `Content-Length`
header above 2 MiB is answered 413 by the handler's own check, before the
body is read and before any dispatch; without such a header (or with a
declared length within the handler's 2 MiB bound), a body that reaches
aiohttp's default 1 MiB `client_max_size` makes `request.json()` raise
`HTTPRequestEntityTooLarge`, which the generic exception handler turns
into a 500 — the body is never consumed to completion and nothing is
dispatched.  Hence every request whose body exceeds 2 MiB is rejected
before the body is parsed and before any dispatch, but the status is 413
only in the declared-header case, not for all framings. -/
theorem rpc_handler_content_length_cap (auth : String) (req : RpcRequest)
    (found : Bool)
    (hauth : auth = "" ∨
      (if req.headerToken != "" then req.headerToken else req.queryToken)
        = auth) :
    (∀ n, req.contentLengthHeader = some n → 2 * 1024 * 1024 < n →
      rpc_handler auth req found =
        { status := 413, bodyRead := false, dispatched := false }) ∧
    ((req.contentLengthHeader = none ∨
        ∃ n, req.contentLengthHeader = some n ∧ n ≤ 2 * 1024 * 1024) →
      aiohttpClientMaxSize ≤ req.bodyBytes →
      rpc_handler auth req found =
        { status := 500, bodyRead := false, dispatched := false }) ∧
    (2 * 1024 * 1024 < req.bodyBytes →
      (rpc_handler auth req found).dispatched = false ∧
      (rpc_handler auth req found).bodyRead = false) := by
  have htok : (auth != "" &&
      ((if req.headerToken != "" then req.headerToken else req.queryToken)
        != auth)) = false := by
    rcases hauth with hauth | hauth
    · subst hauth
      simp
    · rw [hauth]
      simp
  have h413 : ∀ n, req.contentLengthHeader = some n → 2 * 1024 * 1024 < n →
      rpc_handler auth req found =
        { status := 413, bodyRead := false, dispatched := false } := by
    intro n hcl hn
    simp only [rpc_handler, htok, Bool.false_eq_true, if_false, hcl]
    rw [if_pos hn]
  have h500 : (req.contentLengthHeader = none ∨
        ∃ n, req.contentLengthHeader = some n ∧ n ≤ 2 * 1024 * 1024) →
      aiohttpClientMaxSize ≤ req.bodyBytes →
      rpc_handler auth req found =
        { status := 500, bodyRead := false, dispatched := false } := by
    intro hcl hbig
    rcases hcl with hcl | ⟨n, hcl, hn⟩
    · simp only [rpc_handler, htok, Bool.false_eq_true, if_false, hcl,
        rpcAfterSizeCheck]
      rw [if_pos hbig]
    · simp only [rpc_handler, htok, Bool.false_eq_true, if_false, hcl,
        rpcAfterSizeCheck]
      rw [if_neg (not_lt.mpr hn), if_pos hbig]
  refine ⟨h413, h500, ?_⟩
  intro hbody
  have hcap : aiohttpClientMaxSize ≤ req.bodyBytes := by
    unfold aiohttpClientMaxSize
    omega
  rcases hcl : req.contentLengthHeader with _ | n
  · rw [h500 (Or.inl hcl) hcap]
    exact ⟨rfl, rfl⟩
  · by_cases hn : 2 * 1024 * 1024 < n
    · rw [h413 n hcl hn]
      exact ⟨rfl, rfl⟩
    · rw [h500 (Or.inr ⟨n, hcl, not_lt.mp hn⟩) hcap]
      exact ⟨rfl, rfl⟩

/-- Witness for the amended C7: with auth disabled, a 3 MiB body declared
by its header is answered 413 unread and undispatched, and the same body
sent chunked is answered 500, also unread and undispatched. -/
theorem rpc_handler_content_length_cap_witness :
    rpc_handler "" rpcLargeDeclared true =
      { status := 413, bodyRead := false, dispatched := false } ∧
    rpc_handler "" rpcLargeChunked true =
      { status := 500, bodyRead := false, dispatched := false } := by
  obtain ⟨h413, _, _⟩ :=
    rpc_handler_content_length_cap "" rpcLargeDeclared true (Or.inl rfl)
  obtain ⟨_, h500, _⟩ :=
    rpc_handler_content_length_cap "" rpcLargeChunked true (Or.inl rfl)
  exact ⟨h413 (3 * 1024 * 1024) rfl (by decide),
    h500 (Or.inl rfl) (by decide)⟩

/-- Counterexample to C7 as stated: a 3 MiB body sent WITHOUT a
`Content-Length` header (chunked framing) is rejected by aiohttp's 1 MiB
`client_max_size` inside `request.json()`, and the handler's generic
exception branch answers 500 — not the HTTP 413 the claim requires for
all framings. -/
theorem rpc_handler_no_header_counterexample :
    rpc_handler "" rpcLargeChunked true =
      { status := 500, bodyRead := false, dispatched := false } ∧
    rpcLargeChunked.bodyBytes > 2 * 1024 * 1024 ∧
    (500 : Nat) ≠ 413 := by
  refine ⟨by decide, by decide, by decide⟩

theorem pendingReplace_keys (e : PendingEntry) :
    ∀ l : List PendingEntry,
      (l.map (fun q => if q.rid == e.rid then e else q)).map (·.rid) =
        l.map (·.rid)
  | [] => rfl
  | q :: t => by
      simp only [List.map_cons, pendingReplace_keys e t]
      by_cases hq : (q.rid == e.rid) = true
      · rw [if_pos hq, eq_of_beq hq]
      · rw [if_neg hq]

theorem pendingSet_keys_nodup (e : PendingEntry) (l : List PendingEntry)
    (h : (l.map (·.rid)).Nodup) : ((pendingSet e l).map (·.rid)).Nodup := by
  unfold pendingSet
  split
  · rw [pendingReplace_keys]
    exact h
  · rename_i hany
    rw [List.map_append, List.nodup_append]
    refine ⟨h, List.nodup_singleton _, ?_⟩
    intro a ha hb
    rcases List.mem_map.mp ha with ⟨q, hq, hqr⟩
    rw [List.map_singleton, List.mem_singleton] at hb
    apply hany
    exact List.any_eq_true.mpr ⟨q, hq, beq_iff_eq.mpr (hqr.trans hb)⟩

theorem handle_response_pending_sublist (st : HubState) (m : WsMessage) :
    (handle_response st m).1.pending.Sublist st.pending := by
  unfold handle_response
  rcases m.msgType with _ | t
  · exact List.Sublist.refl _
  · rcases m.id with _ | rid
    · exact List.Sublist.refl _
    · dsimp only
      split
      · split
        · split
          · exact List.filter_sublist _
          · exact List.filter_sublist _
        · exact List.Sublist.refl _
      · exact List.Sublist.refl _

theorem rid_not_mem_filtered (l : List PendingEntry) (rid : String) :
    rid ∉ (l.filter (fun e => e.rid != rid)).map (·.rid) := by
  intro hmem
  rcases List.mem_map.mp hmem with ⟨e, he, hr⟩
  have := (List.mem_filter.mp he).2
  rw [hr] at this
  simp at this

theorem find?_rid_unique {l : List PendingEntry}
    (hnd : (l.map (·.rid)).Nodup) {e : PendingEntry} (he : e ∈ l) :
    l.find? (fun q => q.rid == e.rid) = some e := by
  induction l with
  | nil => cases he
  | cons a t ih =>
    rw [List.map_cons, List.nodup_cons] at hnd
    rcases List.mem_cons.mp he with rfl | ht
    · rw [List.find?_cons_of_pos _ (by simp)]
    · have ha : ¬(a.rid == e.rid) = true := by
        intro hcontra
        exact hnd.1 (eq_of_beq hcontra ▸ List.mem_map_of_mem (·.rid) ht)
      rw [List.find?_cons_of_neg _ (by simpa using ha)]
      exact ih hnd.2 ht

theorem disconnect_pending_sublist (st : HubState) (cid : String) :
    (disconnect st cid).1.pending.Sublist st.pending := by
  unfold disconnect
  exact List.filter_sublist _

theorem finishRequest_pending_sublist (st : HubState) (rid : String) :
    (finishRequest st rid).pending.Sublist st.pending := by
  unfold finishRequest
  exact List.filter_sublist _

theorem hub_nodup_invariant (st : HubState) (h : HubReachable st) :
    (pendingKeys st).Nodup := by
  induction h with
  | init => exact List.nodup_nil
  | step hr hs ih =>
    cases hs with
    | connect cid => exact ih
    | register cid vaultName => exact ih
    | start rid owner => exact pendingSet_keys_nodup _ _ ih
    | response m =>
        exact ih.sublist
          (List.Sublist.map (fun p : PendingEntry => p.rid)
            (handle_response_pending_sublist _ m))
    | disc cid =>
        exact ih.sublist
          (List.Sublist.map (fun p : PendingEntry => p.rid)
            (disconnect_pending_sublist _ cid))
    | finish rid =>
        exact ih.sublist
          (List.Sublist.map (fun p : PendingEntry => p.rid)
            (finishRequest_pending_sublist _ rid))

/-- C2 (amended).  In every reachable hub state the pending map holds at
most one entry per request id; a `*response` message whose id is a pending
request pops that entry exactly once and, when its future is unresolved,
resolves it with the `{success, payload, error, timestamp}` envelope; on a
client disconnect EVERY unresolved pending request is cancelled, whoever
owns it (the map records no owner), while already-resolved entries stay;
and `request_file_operation` removes its entry on every exit path —
reply, timeout, or error — and touches nothing when no vault matches. -/
theorem hub_pending_correlation :
    (∀ st : HubState, HubReachable st → (pendingKeys st).Nodup) ∧
    (∀ (st : HubState) (m : WsMessage) (t rid : String) (e : PendingEntry),
        m.msgType = some t → pyIn "response" t = true →
        m.id = some rid → rid ≠ "" →
        e ∈ st.pending → e.rid = rid →
        ((handle_response st m).1.pending =
            st.pending.filter (fun e' => e'.rid != rid) ∧
          rid ∉ pendingKeys (handle_response st m).1 ∧
          (e.fut = .pend → (pendingKeys st).Nodup →
            (handle_response st m).2 = some (rid, envelopeOf m)))) ∧
    (∀ (st : HubState) (cid : String) (e : PendingEntry), e ∈ st.pending →
        (e.fut = .pend → e.rid ∈ (disconnect st cid).2 ∧
          e ∉ (disconnect st cid).1.pending) ∧
        (e.fut ≠ .pend → e ∈ (disconnect st cid).1.pending)) ∧
    (∀ (st : HubState) (vault rid : String) (outcome : RfoOutcome)
        (tr : String),
        (lookupClientForVault st vault = none →
          request_file_operation st vault rid outcome tr = (st, none)) ∧
        (lookupClientForVault st vault ≠ none →
          rid ∉ pendingKeys
            (request_file_operation st vault rid outcome tr).1)) := by
  refine ⟨hub_nodup_invariant, ?_, ?_, ?_⟩
  · intro st m t rid e hmt hresp hid hrid he her
    have hmem : rid ∈ pendingKeys st := by
      rw [← her]
      exact List.mem_map_of_mem (·.rid) he
    have hcontains : (pendingKeys st).contains rid = true :=
      List.elem_eq_true_of_mem hmem
    have hcond : (pyIn "response" t && rid != "" &&
        (pendingKeys st).contains rid) = true := by
      simp [hresp, hrid, hmem, hcontains]
    have hfind : ∀ e', st.pending.find? (fun q => q.rid == rid) = some e' →
        (handle_response st m).1.pending =
            st.pending.filter (fun e'' => e''.rid != rid) ∧
          ((e'.fut == FutureSt.pend) = true →
            (handle_response st m).2 = some (rid, envelopeOf m)) := by
      intro e' hf
      unfold handle_response
      rw [hmt, hid]
      dsimp only
      rw [if_pos hcond, hf]
      dsimp only
      constructor
      · split <;> rfl
      · intro hp
        rw [if_pos hp]
    have hnonone : st.pending.find? (fun q => q.rid == rid) ≠ none := by
      intro hf
      rw [List.find?_eq_none] at hf
      have := hf e he
      rw [her] at this
      simp at this
    rcases hf : st.pending.find? (fun q => q.rid == rid) with _ | e'
    · exact absurd hf hnonone
    · obtain ⟨hpend, hres⟩ := hfind e' hf
      refine ⟨hpend, ?_, ?_⟩
      · rw [show pendingKeys (handle_response st m).1 =
            ((handle_response st m).1.pending).map (·.rid) from rfl, hpend]
        exact rid_not_mem_filtered _ _
      · intro hfut hnd
        have : st.pending.find? (fun q => q.rid == e.rid) = some e :=
          find?_rid_unique hnd he
        rw [her] at this
        rw [this] at hf
        injection hf with hee
        subst hee
        exact hres (by rw [hfut]; decide)
  · intro st cid e he
    constructor
    · intro hfut
      have hmemf : e ∈ st.pending.filter (fun q => q.fut == FutureSt.pend) :=
        List.mem_filter.mpr ⟨he, by rw [hfut]; decide⟩
      constructor
      · unfold disconnect
        dsimp only
        exact List.mem_map_of_mem (·.rid) hmemf
      · unfold disconnect
        dsimp only
        intro hcontra
        have hpred := (List.mem_filter.mp hcontra).2
        simp [hfut] at hpred
    · intro hfut
      unfold disconnect
      dsimp only
      refine List.mem_filter.mpr ⟨he, ?_⟩
      simpa using hfut
  · intro st vault rid outcome tr
    constructor
    · intro hnone
      unfold request_file_operation
      rw [hnone]
    · intro hsome
      rcases hlook : lookupClientForVault st vault with _ | cid
      · exact absurd hlook hsome
      · unfold request_file_operation
        rw [hlook]
        dsimp only
        rcases outcome with m | _ | msg
        · exact rid_not_mem_filtered _ _
        · exact rid_not_mem_filtered _ _
        · exact rid_not_mem_filtered _ _

/-- Witness for the amended C2 at concrete states: the empty initial state
has unique keys; a response for `r1` pops and resolves it; disconnecting
`B` cancels `A`'s request `r1`; and a timed-out `request_file_operation`
leaves no `r1` entry behind. -/
theorem hub_pending_correlation_witness :
    (pendingKeys ⟨[], [], [], [], []⟩).Nodup ∧
    ((handle_response hubTwoClients respMsg).1.pending = [] ∧
      "r1" ∉ pendingKeys (handle_response hubTwoClients respMsg).1 ∧
      (handle_response hubTwoClients respMsg).2 =
        some ("r1", envelopeOf respMsg)) ∧
    ("r1" ∈ (disconnect hubTwoClients "B").2 ∧
      (⟨"r1", "A", .pend⟩ : PendingEntry) ∉
        (disconnect hubTwoClients "B").1.pending) ∧
    "r1" ∉ pendingKeys
      (request_file_operation hubReg "V" "r1" .timeout "20.0").1 := by
  obtain ⟨h1, h2, h3, h4⟩ := hub_pending_correlation
  obtain ⟨ha, hb, hc⟩ := h2 hubTwoClients respMsg "read_file_response" "r1"
    ⟨"r1", "A", .pend⟩ rfl (by decide) rfl (by decide) (by decide) rfl
  refine ⟨h1 _ HubReachable.init, ⟨ha.trans (by decide), hb,
    hc rfl (by decide)⟩, ?_, ?_⟩
  · have := (h3 hubTwoClients "B" ⟨"r1", "A", .pend⟩ (by decide)).1 rfl
    exact this
  · exact (h4 hubReg "V" "r1" .timeout "20.0").2 (by decide)

/-- Counterexample to C2 as stated: in the reachable state with clients
`A` and `B` and one pending request `r1` sent to `A`, disconnecting `B`
cancels `r1` — the cleanup loop iterates the whole pending map and stores
no ownership, so requests of OTHER clients are not left alone. -/
theorem disconnect_cancels_all_counterexample :
    HubReachable hubTwoClients ∧
    (disconnect hubTwoClients "B").2 = ["r1"] ∧
    (disconnect hubTwoClients "B").1.pending = [] ∧
    (∃ e ∈ hubTwoClients.pending, e.owner = "A" ∧ e.fut = .pend) ∧
    ("A" : String) ≠ "B" := by
  refine ⟨?_, by decide, by decide,
    ⟨⟨"r1", "A", .pend⟩, by decide, rfl, rfl⟩, by decide⟩
  have h1 : HubReachable ⟨["A"], [], [], [], []⟩ := by
    have h := HubReachable.step HubReachable.init (HubStep.connect _ "A")
    simpa using h
  have h2 : HubReachable ⟨["A", "B"], [], [], [], []⟩ := by
    have h := HubReachable.step h1 (HubStep.connect _ "B")
    simpa using h
  have h3 := HubReachable.step h2 (HubStep.start _ "r1" "A")
  simpa [hubTwoClients, startRequest, pendingSet] using h3

end MegaMem
